import Mathlib

/-!
# Invoice and receipt engine of the fitness-club bot

A shallow embedding of the monetary engine of the repository:

* `src/utils/money.js`      : `round2`
* `src/receipt/receiptGenerator.js` : `computeTotals`, `buildReceiptFromInvoice`,
  `validateReceiptData`
* `src/invoice/invoiceGenerator.js` : `computeTotals`
* `src/utils/validate.js`   : `validateInvoiceData`, `validateReceiptData`
* `src/bot.js`              : the `/receipt` command up to its validation step

JavaScript numbers are IEEE-754 binary64 values.  A finite double is carried as
the rational number it denotes, and every arithmetic operation rounds its exact
result to the nearest double, ties to even (`toDouble`).  The two zeros are
identified: no operation of the embedded code (`+`, `-`, `*`, `/` by the
literal `100`, comparisons, `Math.round`, `Math.abs`, truthiness) tells them
apart.
-/

namespace Billing

/-! ## Numbers -/

/-- A JavaScript number: `NaN`, an infinity with its sign, or a finite value. -/
inductive JSNum where
  | nan
  | inf (neg : Bool)
  | fin (q : ℚ)
  deriving DecidableEq

/-- The power `2 ^ e` for an integer exponent. -/
def pow2 (e : ℤ) : ℚ :=
  if 0 ≤ e then ((2 ^ e.toNat : ℕ) : ℚ) else 1 / ((2 ^ (-e).toNat : ℕ) : ℚ)

/-- Binary logarithm by repeated halving, `fuel` bounding the number of steps. -/
def log2Aux : ℕ → ℕ → ℕ
  | 0, _ => 0
  | fuel + 1, n => if n < 2 then 0 else log2Aux fuel (n / 2) + 1

/-- Floor of the binary logarithm of a natural number (`0` for `0`). -/
def ilog2 (n : ℕ) : ℕ := log2Aux n n

/-- The binade of a nonzero rational: the `b` with `2 ^ b ≤ |q| < 2 ^ (b + 1)`. -/
def binade (q : ℚ) : ℤ :=
  let k : ℤ := (ilog2 q.num.natAbs : ℤ) - (ilog2 q.den : ℤ)
  if pow2 k ≤ |q| then k else k - 1

/-- Round to the nearest integer, ties to the even one. -/
def roundHalfEven (t : ℚ) : ℤ :=
  let f := ⌊t⌋
  let r := t - f
  if r < 1 / 2 then f
  else if 1 / 2 < r then f + 1
  else if f % 2 = 0 then f else f + 1

/-- Exponent of the unit in the last place of the doubles around `q`:
53 significant bits, and `2 ^ (-1074)` in the subnormal range. -/
def ulpExp (q : ℚ) : ℤ := max (binade q - 52) (-1074)

/-- Round an exact result to binary64, to nearest with ties to even; a
magnitude that rounds to `2 ^ 1024` or more overflows to an infinity. -/
def toDouble (q : ℚ) : JSNum :=
  if q = 0 then .fin 0
  else
    let e := ulpExp q
    let r := (roundHalfEven (q / pow2 e) : ℚ) * pow2 e
    if pow2 1024 ≤ |r| then .inf (decide (r < 0)) else .fin r

namespace JSNum

/-- Unary minus. -/
def neg : JSNum → JSNum
  | nan => nan
  | inf s => inf (!s)
  | fin q => fin (-q)

/-- The operator `+` on two numbers. -/
def add : JSNum → JSNum → JSNum
  | nan, _ => nan
  | _, nan => nan
  | inf a, inf b => if a = b then inf a else nan
  | inf a, fin _ => inf a
  | fin _, inf b => inf b
  | fin a, fin b => toDouble (a + b)

/-- The operator `-` on two numbers. -/
def sub (x y : JSNum) : JSNum := add x (neg y)

/-- The operator `*` on two numbers. -/
def mul : JSNum → JSNum → JSNum
  | nan, _ => nan
  | _, nan => nan
  | inf a, inf b => inf (a != b)
  | inf a, fin q => if q = 0 then nan else inf (a != decide (q < 0))
  | fin q, inf b => if q = 0 then nan else inf (decide (q < 0) != b)
  | fin a, fin b => toDouble (a * b)

/-- The operator `/` on two numbers.  Every divisor in the embedded code is
the literal `100`; a zero divisor is read as `+0`. -/
def div : JSNum → JSNum → JSNum
  | nan, _ => nan
  | _, nan => nan
  | inf _, inf _ => nan
  | inf a, fin q => inf (a != decide (q < 0))
  | fin _, inf _ => fin 0
  | fin a, fin b =>
    if b = 0 then (if a = 0 then nan else inf (decide (a < 0))) else toDouble (a / b)

/-- The comparison `<`. -/
def lt : JSNum → JSNum → Bool
  | nan, _ => false
  | _, nan => false
  | inf a, inf b => a && !b
  | inf a, fin _ => a
  | fin _, inf b => !b
  | fin a, fin b => decide (a < b)

/-- The comparison `>`. -/
def gt (x y : JSNum) : Bool := lt y x

/-- The comparison `<=`. -/
def le : JSNum → JSNum → Bool
  | nan, _ => false
  | _, nan => false
  | inf a, inf b => a || !b
  | inf a, fin _ => a
  | fin _, inf b => !b
  | fin a, fin b => decide (a ≤ b)

/-- The function `Math.abs`. -/
def abs : JSNum → JSNum
  | nan => nan
  | inf _ => inf false
  | fin q => fin |q|

/-- The function `Math.round`: the nearest integer, a tie going toward `+∞`.
The result is always representable, so no rounding to binary64 follows. -/
def round : JSNum → JSNum
  | fin q => fin (⌊q + 1 / 2⌋ : ℤ)
  | x => x

/-- A number that is neither `NaN` nor infinite. -/
def isFinite : JSNum → Bool
  | fin _ => true
  | _ => false

end JSNum

/-- The constant `Number.EPSILON`, `2 ^ (-52)`. -/
def EPSILON : JSNum := .fin (pow2 (-52))

/-- Source `round2` of `utils/money.js`:
`Math.round((Number(value) + Number.EPSILON) * 100) / 100`.
Every caller passes a number, on which `Number` is the identity. -/
def round2 (value : JSNum) : JSNum :=
  JSNum.div (JSNum.round (JSNum.mul (JSNum.add value EPSILON) (.fin 100))) (.fin 100)

/-! ## Values -/

/-- A JavaScript value as the engine meets it: the primitives, arrays, and
plain data objects (as produced by `JSON.parse` or an object literal).  The
fields of an object are read front to back, so the literal `{...a, k: v}` is
the field list `(k, v) :: a`. -/
inductive JSVal where
  | undefined
  | null
  | bool (b : Bool)
  | num (n : JSNum)
  | str (s : String)
  | arr (elems : List JSVal)
  | obj (fields : List (String × JSVal))

/-- Conversions of the host that the engine calls but does not define:
`Number` applied to a string, `Array.prototype.toString` (through which
`Number` converts an array), and `Intl.NumberFormat` as set up by `formatINR`. -/
structure Host where
  stringToNumber : String → JSNum
  arrayToString : List JSVal → String
  formatNumber : JSNum → String

namespace JSVal

/-- Truthiness: what `!v`, `v || w` and `v ? a : b` test. -/
def truthy : JSVal → Bool
  | undefined => false
  | null => false
  | bool b => b
  | num .nan => false
  | num (.inf _) => true
  | num (.fin q) => decide (q ≠ 0)
  | str s => decide (s ≠ "")
  | arr _ => true
  | obj _ => true

/-- The operator `a || b`. -/
def or (a b : JSVal) : JSVal := if a.truthy then a else b

/-- The values `undefined` and `null`, on which a property read throws. -/
def isNullish : JSVal → Bool
  | undefined => true
  | null => true
  | _ => false

/-- The function `Number(v)`.  A plain object converts to `NaN`. -/
def toNumber (H : Host) : JSVal → JSNum
  | undefined => .nan
  | null => .fin 0
  | bool b => if b then .fin 1 else .fin 0
  | num n => n
  | str s => H.stringToNumber s
  | arr xs => H.stringToNumber (H.arrayToString xs)
  | obj _ => .nan

/-- The test `typeof v === 'number'`. -/
def isNumber : JSVal → Bool
  | num _ => true
  | _ => false

/-- First entry of a field list under key `k`, `undefined` when there is none. -/
def lookup (k : String) : List (String × JSVal) → JSVal
  | [] => undefined
  | (k', v) :: rest => if k' = k then v else lookup k rest

/-- The entries `0 ↦ x₀, 1 ↦ x₁, …` of an array or a string, from index `i`. -/
def indexed : ℕ → List JSVal → List (String × JSVal)
  | _, [] => []
  | i, x :: xs => (toString i, x) :: indexed (i + 1) xs

/-- Own enumerable properties, as copied by a spread `{...v}`: the fields of an
object, the indexed elements of an array or string, nothing for the other
primitives (`undefined` and `null` included).  A string is taken character by
character; JavaScript indexes its UTF-16 code units, which are two for a
character outside the Basic Multilingual Plane. -/
def ownFields : JSVal → List (String × JSVal)
  | obj fs => fs
  | arr xs => indexed 0 xs
  | str s => indexed 0 (s.toList.map fun c => str (String.singleton c))
  | _ => []

/-- The property read `v.k` for the property names of this program (none of
them an index or `length`, none inherited): `none` is the `TypeError` thrown on
`undefined` and `null`; a primitive or an array has no such property. -/
def get (v : JSVal) (k : String) : Option JSVal :=
  match v with
  | undefined => none
  | null => none
  | obj fs => some (lookup k fs)
  | _ => some undefined

/-- The optional read `v?.k`. -/
def getOpt (v : JSVal) (k : String) : JSVal :=
  match v with
  | obj fs => lookup k fs
  | _ => undefined

end JSVal

/-! ## Totals: the two `computeTotals` routines -/

/-- The method `Array.prototype.map` with a callback that may throw: the
elements are visited in order, each with its index, and the first throw
(`none`) ends the call. -/
def mapIdxOpt {α β : Type} (f : ℕ → α → Option β) : ℕ → List α → Option (List β)
  | _, [] => some []
  | i, x :: xs =>
    match f i x with
    | none => none
    | some y =>
      match mapIdxOpt f (i + 1) xs with
      | none => none
      | some ys => some (y :: ys)

/-- The read `Number(v.k || 0)`; `none` when `v` is `undefined` or `null`. -/
def numberOr0 (H : Host) (v : JSVal) (k : String) : Option JSNum :=
  (v.get k).map fun x => JSVal.toNumber H (JSVal.or x (.num (.fin 0)))

/-- The combined charge `round2(Number(charges.shipping || 0) +
Number(charges.serviceCharge || 0))`, with the default `charges = {}` for an
absent argument. -/
def shippingOf (H : Host) (charges : JSVal) : Option JSNum :=
  let charges := match charges with
    | .undefined => JSVal.obj []
    | c => c
  match numberOr0 H charges "shipping", numberOr0 H charges "serviceCharge" with
  | some s, some c => some (round2 (JSNum.add s c))
  | _, _ => none

/-- Source `formatINR` of `utils/money.js`: the host formatter applied to
`Number(value || 0)`. -/
def formatINR (H : Host) (value : JSVal) : String :=
  H.formatNumber (JSVal.toNumber H (JSVal.or value (.num (.fin 0))))

namespace Receipt

/-- A computed line `{...item, taxable, gstAmount, lineTotal}`: the spread
source and the three explicit fields. -/
structure ComputedItem where
  item : JSVal
  taxable : JSNum
  gstAmount : JSNum
  lineTotal : JSNum

/-- The `summary` object of the receipt generator. -/
structure Summary where
  subtotal : JSNum
  gstTotal : JSNum
  shipping : JSNum
  grandTotal : JSNum

/-- The result `{ computedItems, summary }` of the receipt generator. -/
structure Totals where
  computedItems : List ComputedItem
  summary : Summary

/-- The callback of `items.map` in `computeTotals` (receipt generator). -/
def computeItem (H : Host) (item : JSVal) : Option ComputedItem :=
  match numberOr0 H item "qty", numberOr0 H item "rate",
    numberOr0 H item "discountPercent", numberOr0 H item "gstPercent" with
  | some qty, some rate, some discountPercent, some gstPercent =>
    let taxable := round2 (JSNum.mul (JSNum.mul qty rate)
      (JSNum.sub (.fin 1) (JSNum.div discountPercent (.fin 100))))
    let gstAmount := round2 (JSNum.mul taxable (JSNum.div gstPercent (.fin 100)))
    let lineTotal := round2 (JSNum.add taxable gstAmount)
    some { item := item, taxable := taxable, gstAmount := gstAmount, lineTotal := lineTotal }
  | _, _, _, _ => none

/-- Source `computeTotals` of `receipt/receiptGenerator.js`; `none` is a thrown
`TypeError` (a nullish item, or `charges` being `null`). -/
def computeTotals (H : Host) (items : List JSVal) (charges : JSVal) : Option Totals :=
  match mapIdxOpt (fun _ item => computeItem H item) 0 items with
  | none => none
  | some computedItems =>
    let subtotal := round2 (computedItems.foldl (fun sum i => JSNum.add sum i.taxable) (.fin 0))
    let gstTotal := round2 (computedItems.foldl (fun sum i => JSNum.add sum i.gstAmount) (.fin 0))
    match shippingOf H charges with
    | none => none
    | some shipping =>
      let grandTotal := round2 (JSNum.add (JSNum.add subtotal gstTotal) shipping)
      some { computedItems := computedItems,
             summary := { subtotal := subtotal, gstTotal := gstTotal,
                          shipping := shipping, grandTotal := grandTotal } }

end Receipt

namespace Invoice

/-- A computed line of the invoice generator: the spread source, the serial
number, the three amounts and the four formatted strings. -/
structure ComputedItem where
  item : JSVal
  sr : ℕ
  taxable : JSNum
  gstAmount : JSNum
  lineTotal : JSNum
  rateFormatted : String
  taxableFormatted : String
  gstAmountFormatted : String
  lineTotalFormatted : String

/-- The `summary` object of the invoice generator. -/
structure Summary where
  subtotal : JSNum
  gstTotal : JSNum
  discountTotal : JSNum
  shipping : JSNum
  grandTotal : JSNum
  roundOff : JSNum

/-- The result `{ computedItems, summary }` of the invoice generator. -/
structure Totals where
  computedItems : List ComputedItem
  summary : Summary

/-- The callback of `items.map` in `computeTotals` (invoice generator). -/
def computeItem (H : Host) (index : ℕ) (item : JSVal) : Option ComputedItem :=
  match numberOr0 H item "qty", numberOr0 H item "rate",
    numberOr0 H item "discountPercent", numberOr0 H item "gstPercent" with
  | some qty, some rate, some discountPercent, some gstPercent =>
    let taxable := round2 (JSNum.mul (JSNum.mul qty rate)
      (JSNum.sub (.fin 1) (JSNum.div discountPercent (.fin 100))))
    let gstAmount := round2 (JSNum.mul taxable (JSNum.div gstPercent (.fin 100)))
    let lineTotal := round2 (JSNum.add taxable gstAmount)
    some { item := item, sr := index + 1,
           taxable := taxable, gstAmount := gstAmount, lineTotal := lineTotal,
           rateFormatted := formatINR H (.num rate),
           taxableFormatted := formatINR H (.num taxable),
           gstAmountFormatted := formatINR H (.num gstAmount),
           lineTotalFormatted := formatINR H (.num lineTotal) }
  | _, _, _, _ => none

/-- The callback of the `discountTotal` reduction: `sum + (Number(i.qty) *
Number(i.rate) - i.taxable)`, where `i.qty` and `i.rate` are the fields the
computed line took over from its source item. -/
def discountStep (H : Host) (sum : JSNum) (i : ComputedItem) : JSNum :=
  let base := JSNum.mul (JSVal.toNumber H (i.item.getOpt "qty"))
    (JSVal.toNumber H (i.item.getOpt "rate"))
  JSNum.add sum (JSNum.sub base i.taxable)

/-- Source `computeTotals` of `invoice/invoiceGenerator.js`; `none` is a thrown
`TypeError` (a nullish item, or `charges` being `null`). -/
def computeTotals (H : Host) (items : List JSVal) (charges : JSVal) : Option Totals :=
  match mapIdxOpt (computeItem H) 0 items with
  | none => none
  | some computedItems =>
    let subtotal := round2 (computedItems.foldl (fun sum i => JSNum.add sum i.taxable) (.fin 0))
    let gstTotal := round2 (computedItems.foldl (fun sum i => JSNum.add sum i.gstAmount) (.fin 0))
    let discountTotal := round2 (computedItems.foldl (discountStep H) (.fin 0))
    match shippingOf H charges with
    | none => none
    | some shipping =>
      let grandTotal := round2 (JSNum.add (JSNum.add subtotal gstTotal) shipping)
      some { computedItems := computedItems,
             summary := { subtotal := subtotal, gstTotal := gstTotal,
                          discountTotal := discountTotal, shipping := shipping,
                          grandTotal := grandTotal, roundOff := .fin 0 } }

end Invoice

/-! ## Receipt derivation and validation -/

/-- The clock reading of `dayjs()`, in civil-time components. -/
structure Clock where
  year : ℕ
  month : ℕ
  day : ℕ
  hour : ℕ
  minute : ℕ

/-- Decimal digits of `n`, zero-padded on the left to `width` characters. -/
def padZero (width n : ℕ) : String :=
  let d := toString n
  String.mk (List.replicate (width - d.length) '0') ++ d

/-- The string `dayjs().format('YYYY-MM-DD')`. -/
def Clock.date (now : Clock) : String :=
  padZero 4 now.year ++ "-" ++ padZero 2 now.month ++ "-" ++ padZero 2 now.day

/-- The string `dayjs().format('YYYYMMDD-HHmm')`. -/
def Clock.stamp (now : Clock) : String :=
  padZero 4 now.year ++ padZero 2 now.month ++ padZero 2 now.day ++ "-"
    ++ padZero 2 now.hour ++ padZero 2 now.minute

/-- Source `buildReceiptFromInvoice` of `receipt/receiptGenerator.js`.  An
absent `receiptOverrides` defaults to `{}`; `none` is the `TypeError` of
reading a property of `null` overrides or of a nullish `invoiceData`. -/
def buildReceiptFromInvoice (now : Clock) (invoiceData receiptOverrides : JSVal) :
    Option JSVal :=
  let receiptOverrides := match receiptOverrides with
    | .undefined => JSVal.obj []
    | o => o
  let invoiceId := JSVal.or ((invoiceData.getOpt "invoice").getOpt "invoiceId") (.str "")
  match receiptOverrides.get "receiptDate", receiptOverrides.get "receiptId",
    receiptOverrides.get "paymentMethod", receiptOverrides.get "transactionId",
    receiptOverrides.get "amountPaid", receiptOverrides.get "paymentNotes",
    invoiceData.get "invoice" with
  | some oDate, some oId, some oMethod, some oTxn, some oAmount, some oNotes, some inv =>
    let receiptDate := JSVal.or oDate (.str now.date)
    some (.obj (
      ("invoice", .obj (("invoiceId", invoiceId) :: inv.ownFields)) ::
      ("receipt", .obj [
        ("receiptId", JSVal.or oId (.str ("RCPT-" ++ now.stamp))),
        ("receiptDate", receiptDate),
        ("paymentMethod", JSVal.or oMethod (.str "UPI")),
        ("transactionId", JSVal.or oTxn (.str "")),
        ("amountPaid", oAmount),
        ("paymentNotes", JSVal.or oNotes (.str ""))]) ::
      invoiceData.ownFields))
  | _, _, _, _, _, _, _ => none

/-- The result shape `{ ok, errors }` of the validators. -/
structure ValidationResult (ε : Type) where
  ok : Bool
  errors : List ε
  deriving DecidableEq

/-- The statement `if (c) errors.push(msg)`. -/
def pushIf (c : Bool) (msg : String) (errors : List String) : List String :=
  if c then errors ++ [msg] else errors

namespace Validate

/-- Source `validateInvoiceData` of `utils/validate.js`.  The validator that
Ajv compiles from the schema is a parameter: `validate data` is the list of
violations it records (all of them, `allErrors` being set); the call returns
`true` exactly when it recorded none, and `validate.errors` is then `null`,
otherwise that list. -/
def validateInvoiceData {ε : Type} (validate : JSVal → List ε) (data : JSVal) :
    ValidationResult ε :=
  let ok := (validate data).isEmpty
  { ok := ok, errors := if ok then [] else validate data }

/-- Source `validateReceiptData` of `utils/validate.js`.  The literal `0.01` is
the double nearest to one hundredth; an `invoiceGrandTotal` that is no number
skips the cross-check. -/
def validateReceiptData (H : Host) (data invoiceGrandTotal : JSVal) :
    ValidationResult String :=
  let receipt := JSVal.or (data.getOpt "receipt") (.obj [])
  let invoiceId := JSVal.or ((data.getOpt "invoice").getOpt "invoiceId") (.str "")
  let errors : List String := []
  let errors := pushIf (!(receipt.getOpt "receiptId").truthy) "receiptId is required" errors
  let errors := pushIf (!(receipt.getOpt "receiptDate").truthy) "receiptDate is required" errors
  let errors := pushIf (!(receipt.getOpt "paymentMethod").truthy)
    "paymentMethod is required" errors
  let errors := pushIf (!invoiceId.truthy) "invoiceId is required" errors
  let amountPaid := JSVal.toNumber H (JSVal.or (receipt.getOpt "amountPaid") (.num (.fin 0)))
  let errors := pushIf (JSNum.le amountPaid (.fin 0)) "amountPaid must be greater than 0" errors
  let errors :=
    match invoiceGrandTotal with
    | .num g =>
      if JSNum.gt amountPaid (.fin 0) then
        let diff := JSNum.abs (JSNum.sub amountPaid g)
        pushIf (JSNum.gt diff (toDouble (1 / 100)))
          "amountPaid does not match invoice grand total" errors
      else errors
    | _ => errors
  { ok := errors.length == 0, errors := errors }

end Validate

namespace Receipt

/-- Source `validateReceiptData` of `receipt/receiptGenerator.js`; `none` is
the `TypeError` of reading `data.receipt` on a nullish `data`. -/
def validateReceiptData (H : Host) (data invoiceGrandTotal : JSVal) :
    Option (ValidationResult String) :=
  match data.get "receipt" with
  | none => none
  | some r =>
    let receipt := JSVal.or r (.obj [])
    let invoiceId := JSVal.or ((data.getOpt "invoice").getOpt "invoiceId") (.str "")
    let errors : List String := []
    let errors := pushIf (!(receipt.getOpt "receiptId").truthy) "receiptId is required" errors
    let errors := pushIf (!(receipt.getOpt "receiptDate").truthy) "receiptDate is required" errors
    let errors := pushIf (!(receipt.getOpt "paymentMethod").truthy)
      "paymentMethod is required" errors
    let errors := pushIf (!invoiceId.truthy) "invoiceId is required" errors
    let amountPaid := JSVal.toNumber H (JSVal.or (receipt.getOpt "amountPaid") (.num (.fin 0)))
    let errors := pushIf (JSNum.le amountPaid (.fin 0)) "amountPaid must be greater than 0" errors
    let errors :=
      match invoiceGrandTotal with
      | .num g =>
        if JSNum.gt amountPaid (.fin 0) then
          let diff := JSNum.abs (JSNum.sub amountPaid g)
          pushIf (JSNum.gt diff (toDouble (1 / 100)))
            "amountPaid does not match invoice grand total" errors
        else errors
      | _ => errors
    some { ok := errors.length == 0, errors := errors }

end Receipt

/-! ## The `/receipt` command -/

/-- The `/receipt` handler of `bot.js` from the totals to the validation
result (lines 79 to 85), for the invoice record `invoiceData` that
`buildSampleInvoiceData` hands it.  `none` is a thrown `TypeError`: `items`
is no array, an item is nullish, or `charges` is `null`. -/
def receiptCommand (H : Host) (now : Clock) (invoiceData : JSVal) :
    Option (ValidationResult String) :=
  match invoiceData.get "items", invoiceData.get "charges", invoiceData.get "receipt" with
  | some (.arr items), some charges, some r =>
    match Receipt.computeTotals H items charges with
    | none => none
    | some totals =>
      let amountPaid := JSVal.toNumber H
        (JSVal.or (r.getOpt "amountPaid") (.num totals.summary.grandTotal))
      let overrides := JSVal.obj (("amountPaid", .num amountPaid) :: r.ownFields)
      match buildReceiptFromInvoice now invoiceData overrides with
      | none => none
      | some receiptData =>
        some (Validate.validateReceiptData H receiptData (.num totals.summary.grandTotal))
  | _, _, _ => none

/-! ## Reference definitions, following the specification -/

/-- A line item as the specification reads it: four numbers. -/
structure LineItem where
  qty : JSNum
  rate : JSNum
  discountPercent : JSNum
  gstPercent : JSNum

/-- The three amounts of a computed line. -/
structure LineAmounts where
  taxable : JSNum
  gstAmount : JSNum
  lineTotal : JSNum
  deriving DecidableEq

/-- Reference line calculation (specification, section 4.2):
`taxable = round2(qty * rate * (1 - discountPercent/100))`,
`gstAmount = round2(taxable * (gstPercent/100))`, the percentage being divided
by `100` before it multiplies the taxable amount,
`lineTotal = round2(taxable + gstAmount)`, all in double arithmetic. -/
def specLine (it : LineItem) : LineAmounts :=
  let taxable := round2 (JSNum.mul (JSNum.mul it.qty it.rate)
    (JSNum.sub (.fin 1) (JSNum.div it.discountPercent (.fin 100))))
  let gstAmount := round2 (JSNum.mul taxable (JSNum.div it.gstPercent (.fin 100)))
  { taxable := taxable, gstAmount := gstAmount, lineTotal := round2 (JSNum.add taxable gstAmount) }

/-- The GST amount as the claim writes it, `round2(taxable*gstPercent/100)`,
with `*` and `/` read left to right: the product is formed first, then divided
by `100`. -/
def claimedGstAmount (taxable gstPercent : JSNum) : JSNum :=
  round2 (JSNum.div (JSNum.mul taxable gstPercent) (.fin 100))

/-- The sum of a list of numbers, taken in input order from `0`. -/
def specSum (xs : List JSNum) : JSNum := xs.foldl JSNum.add (.fin 0)

/-- The document totals of the specification (section 4.3). -/
structure SpecTotals where
  lines : List LineAmounts
  subtotal : JSNum
  gstTotal : JSNum
  discountTotal : JSNum
  shipping : JSNum
  grandTotal : JSNum
  roundOff : JSNum
  deriving DecidableEq

/-- Reference totals (specification, section 4.3), for the line items and the
two charges (an absent charge being `0`). -/
def specTotals (items : List LineItem) (shipping serviceCharge : JSNum) : SpecTotals :=
  let lines := items.map specLine
  let subtotal := round2 (specSum (lines.map fun l => l.taxable))
  let gstTotal := round2 (specSum (lines.map fun l => l.gstAmount))
  let discountTotal := round2 (specSum
    (items.map fun it => JSNum.sub (JSNum.mul it.qty it.rate) (specLine it).taxable))
  let shipping := round2 (JSNum.add shipping serviceCharge)
  { lines := lines, subtotal := subtotal, gstTotal := gstTotal,
    discountTotal := discountTotal, shipping := shipping,
    grandTotal := round2 (JSNum.add (JSNum.add subtotal gstTotal) shipping),
    roundOff := .fin 0 }

/-- The number stored in field `k` of `v` (`NaN` when there is none). -/
def numField (v : JSVal) (k : String) : JSNum :=
  match v.getOpt k with
  | .num n => n
  | _ => .nan

/-- The line item that an item object stands for. -/
def lineItemOf (v : JSVal) : LineItem :=
  { qty := numField v "qty", rate := numField v "rate",
    discountPercent := numField v "discountPercent", gstPercent := numField v "gstPercent" }

/-- An item object whose four numeric fields are finite numbers. -/
def finiteItem (v : JSVal) : Bool :=
  match v with
  | .obj _ =>
    (numField v "qty").isFinite && (numField v "rate").isFinite &&
      (numField v "discountPercent").isFinite && (numField v "gstPercent").isFinite
  | _ => false

/-- A charge field that is absent or a finite number. -/
def chargeFieldOk (v : JSVal) : Bool :=
  match v with
  | .undefined => true
  | .num n => n.isFinite
  | _ => false

/-- An optional charges object: absent, or an object whose `shipping` and
`serviceCharge` are each absent or a finite number. -/
def chargesOk (charges : JSVal) : Bool :=
  match charges with
  | .undefined => true
  | .obj fs => chargeFieldOk (JSVal.lookup "shipping" fs) &&
      chargeFieldOk (JSVal.lookup "serviceCharge" fs)
  | _ => false

/-- The value of a charge, an absent one being `0`. -/
def chargeOf (charges : JSVal) (k : String) : JSNum :=
  match charges.getOpt k with
  | .num n => n
  | _ => .fin 0

/-- The rule of the specification for `round2` (section 4.1) as the claim
spells it out: with `y = x + ε`, the value `sign(y) * floor(|y| * 100 + 1/2) / 100`,
ties going away from zero. -/
def round2HalfAway (x : ℚ) : ℚ :=
  let y := x + 1 / 2 ^ 52
  (SignType.sign y : ℚ) * (⌊|y| * 100 + 1 / 2⌋ : ℚ) / 100

/-- Rounding to the nearest integer with ties away from zero:
`sign(y) * floor(|y| + 1/2)`. -/
def halfAwayFromZero (y : ℚ) : ℤ := (SignType.sign y : ℤ) * ⌊|y| + 1 / 2⌋

/-- The hundredfold of the nudged value of the claim for `round2`, in exact
arithmetic: `(x + ε) * 100` with `ε = 2 ^ (-52)`. -/
def nudgedHundredfold (x : ℚ) : ℚ := (x + 1 / 2 ^ 52) * 100

/-- Rounding to the nearest integer with a tie going toward `+∞`:
`floor (t + 1/2)`. -/
def halfUp (t : ℚ) : ℤ := ⌊t + 1 / 2⌋

/-- Distance from `t` to the nearest tie of rounding to an integer, that is to
the nearest `m + 1/2`. -/
def tieDistance (t : ℚ) : ℚ := |Int.fract t - 1 / 2|

/-- The number of hundredths nearest to a finite amount (`0` otherwise). -/
def cents (x : JSNum) : ℤ :=
  match x with
  | .fin q => ⌊q * 100 + 1 / 2⌋
  | _ => 0

/-- A host for data in which every converted value is already a number: its
conversions of strings and arrays are not consulted there. -/
def Host.numeric : Host :=
  { stringToNumber := fun _ => .nan, arrayToString := fun _ => "", formatNumber := fun _ => "" }

/-- A number that binary64 represents: `NaN`, an infinity, or a finite value
that rounding to binary64 leaves unchanged. -/
def JSNum.isDouble : JSNum → Bool
  | .fin q => decide (toDouble q = .fin q)
  | _ => true

/-- An item whose four numeric fields hold representable numbers. -/
def doubleItem (v : JSVal) : Bool :=
  (numField v "qty").isDouble && (numField v "rate").isDouble &&
    (numField v "discountPercent").isDouble && (numField v "gstPercent").isDouble

/-- The reference totals for a list of item objects and a charges value. -/
def specOf (items : List JSVal) (charges : JSVal) : SpecTotals :=
  specTotals (items.map lineItemOf) (chargeOf charges "shipping")
    (chargeOf charges "serviceCharge")

/-- An item object with the four numeric fields of the schema. -/
def mkItem (description : String) (qty rate discountPercent gstPercent : JSNum) : JSVal :=
  .obj [("description", .str description), ("qty", .num qty), ("rate", .num rate),
    ("discountPercent", .num discountPercent), ("gstPercent", .num gstPercent)]

/-- Scenario A of the specification: one item, no charges. -/
def scenarioAItems : List JSVal :=
  [mkItem "Membership" (.fin 2) (.fin 500) (.fin 0) (.fin 18)]

/-- Scenario B of the specification: the two items. -/
def scenarioBItems : List JSVal :=
  [mkItem "Plan" (.fin 1) (.fin 1000) (.fin 10) (.fin 18),
   mkItem "Session" (.fin 3) (.fin 250) (.fin 0) (.fin 5)]

/-- Scenario B of the specification: the charges. -/
def scenarioBCharges : JSVal :=
  .obj [("shipping", .num (.fin 50)), ("serviceCharge", .num (.fin 25))]

/-- Items with a zero quantity and with a zero rate. -/
def zeroLineItems : List JSVal :=
  [mkItem "Trial" (.fin 0) (.fin 500) (.fin 10) (.fin 18),
   mkItem "Gift" (.fin 3) (.fin 0) (.fin 0) (.fin 5)]

/-- The receipt block that the receipt validators read: `data?.receipt || {}`. -/
def receiptOf (data : JSVal) : JSVal := JSVal.or (data.getOpt "receipt") (.obj [])

/-- The invoice id that the receipt validators and the receipt derivation
read before defaulting: `data?.invoice?.invoiceId`. -/
def sourceInvoiceId (data : JSVal) : JSVal := (data.getOpt "invoice").getOpt "invoiceId"

/-- The four required-field messages of the receipt validators. -/
def requiredMessages : List String :=
  ["receiptId is required", "receiptDate is required", "paymentMethod is required",
   "invoiceId is required"]

/-- The amount that the receipt validators test:
`Number(receipt.amountPaid || 0)` with `receipt = data?.receipt || {}`. -/
def amountPaidOf (H : Host) (data : JSVal) : JSNum :=
  JSVal.toNumber H (JSVal.or ((JSVal.or (data.getOpt "receipt") (.obj [])).getOpt "amountPaid")
    (.num (.fin 0)))

/-- A receipt record with the four required fields filled in and the given
`amountPaid`, if any. -/
def receiptRecord (amountPaid : Option JSVal) : JSVal :=
  .obj [("invoice", .obj [("invoiceId", .str "INV-1001")]),
    ("receipt", .obj ([("receiptId", .str "RCPT-20260115-1030"),
      ("receiptDate", .str "2026-01-15"), ("paymentMethod", .str "UPI")] ++
      match amountPaid with
      | some a => [("amountPaid", a)]
      | none => []))]

/-- The elements of the `items` array of a record (none when `items` is no
array). -/
def itemsOf (d : JSVal) : List JSVal :=
  match d.getOpt "items" with
  | .arr xs => xs
  | _ => []

/-- The schema keywords `type: 'number'` with `minimum` and an optional
`maximum`: a number that is not below the minimum nor above the maximum
(`NaN` fails both comparisons). -/
def schemaNumber (v : JSVal) (minimum : ℚ) (maximum : Option ℚ) : Bool :=
  match v with
  | .num n =>
    JSNum.le (.fin minimum) n &&
      (match maximum with
        | some m => JSNum.le n (.fin m)
        | none => true)
  | _ => false

/-- The schema keywords `type: 'string', minLength: 1`. -/
def schemaText (v : JSVal) : Bool :=
  match v with
  | .str s => decide (s ≠ "")
  | _ => false

/-- The `items.items` subschema of `invoice/schema.js`, without its ban on
additional properties: an object with a non-empty `description`, `qty ≥ 0`,
`rate ≥ 0` and both percentages in `[0, 100]`. -/
def schemaItem (v : JSVal) : Bool :=
  match v with
  | .obj fs =>
    schemaText (JSVal.lookup "description" fs) &&
      schemaNumber (JSVal.lookup "qty" fs) 0 none &&
      schemaNumber (JSVal.lookup "rate" fs) 0 none &&
      schemaNumber (JSVal.lookup "discountPercent" fs) 0 (some 100) &&
      schemaNumber (JSVal.lookup "gstPercent" fs) 0 (some 100)
  | _ => false

/-- An optional property with `type: 'number', minimum: 0`. -/
def schemaOptionalCharge (v : JSVal) : Bool :=
  match v with
  | .undefined => true
  | w => schemaNumber w 0 none

/-- The `charges` subschema of `invoice/schema.js`, the property being
optional: absent, or an object whose `shipping` and `serviceCharge` are each
absent or a number `≥ 0`. -/
def schemaCharges (v : JSVal) : Bool :=
  match v with
  | .undefined => true
  | .obj fs => schemaOptionalCharge (JSVal.lookup "shipping" fs) &&
      schemaOptionalCharge (JSVal.lookup "serviceCharge" fs)
  | _ => false

/-- The constraints of `InvoiceSchema` (`invoice/schema.js`) on the parts of a
record that the receipt flow reads: the record is an object, `invoice` is an
object with a non-empty string `invoiceId`, `items` is an array of at least one
item meeting `schemaItem`, and `charges` meets `schemaCharges`.  The schema
constrains more (the other groups, closed field sets); a schema-valid record
meets these. -/
def schemaCore (d : JSVal) : Bool :=
  match d with
  | .obj fs =>
    (match JSVal.lookup "invoice" fs with
      | .obj inv => schemaText (JSVal.lookup "invoiceId" inv)
      | _ => false) &&
    (match JSVal.lookup "items" fs with
      | .arr xs => !xs.isEmpty && xs.all schemaItem
      | _ => false) &&
    schemaCharges (JSVal.lookup "charges" fs)
  | _ => false

/-- An invoice record with the required groups of the schema around the given
items and no `charges`, `payment`, `terms` or `receipt`. -/
def mkInvoice (items : List JSVal) : JSVal :=
  .obj [
    ("business", .obj [("name", .str "Level Up"), ("address", .str "Nashik"),
      ("phone", .str "0000000000")]),
    ("customer", .obj [("name", .str "Asha"), ("telegramUsername", .str "@asha"),
      ("telegramUserId", .str "42")]),
    ("invoice", .obj [("invoiceId", .str "INV-1001"), ("invoiceDate", .str "2026-01-15"),
      ("currency", .str "INR")]),
    ("items", .arr items)]

/-- Scenario A of the specification as an invoice record. -/
def scenarioAInvoice : JSVal := mkInvoice scenarioAItems

/-- A schema-valid invoice record whose only item has quantity `0`. -/
def zeroInvoice : JSVal :=
  mkInvoice [mkItem "Trial" (.fin 0) (.fin 500) (.fin 0) (.fin 18)]

/-- A clock reading: 15 January 2026, 10:30. -/
def sampleClock : Clock := { year := 2026, month := 1, day := 15, hour := 10, minute := 30 }

/-! ## Schema validation: Ajv and `InvoiceSchema` -/

/-- The JSON types that `invoice/schema.js` names in a `type` keyword. -/
inductive JType where
  | object
  | array
  | string
  | number
  deriving DecidableEq

/-- The name of a JSON type. -/
def JType.name : JType → String
  | .object => "object"
  | .array => "array"
  | .string => "string"
  | .number => "number"

/-- The keywords of a schema object other than `properties` and `items`; an
absent keyword is `[]`, `none`, or `true` for `additionalProperties`. -/
structure Keywords where
  type : List JType := []
  required : List String := []
  additionalProperties : Bool := true
  minLength : Option ℕ := none
  format : Option String := none
  enum : Option (List String) := none
  minItems : Option ℕ := none
  minimum : Option ℚ := none
  maximum : Option ℚ := none

/-- A schema object: its keywords, its `properties` (none being `[]`) and its
`items`. -/
inductive Schema where
  | node (kw : Keywords) (properties : List (String × Schema)) (items : Option Schema)

/-- An error object of Ajv, by its fields `instancePath`, `keyword` and
`params`; `schemaPath` and the message text are left out. -/
structure AjvError where
  instancePath : String
  keyword : String
  params : List (String × JSVal)

/-- The Ajv instance of `utils/validate.js`, as far as the schema consults it:
whether numbers must be finite (`strictNumbers`, which the option
`strict: false` governs), and the formats that `addFormats` registers, each a
test of a string. -/
structure Ajv where
  strictNumbers : Bool
  format : String → String → Bool

/-- The test `v !== undefined`. -/
def JSVal.isDefined : JSVal → Bool
  | .undefined => false
  | _ => true

/-- Ajv's test that a value has a JSON type. -/
def JType.check (strictNumbers : Bool) : JType → JSVal → Bool
  | .object, .obj _ => true
  | .array, .arr _ => true
  | .string, .str _ => true
  | .number, .num n => !strictNumbers || n.isFinite
  | _, _ => false

/-- The keys that `for (const key in data)` visits: each key of the field list
once, in the order of the list.  (JavaScript visits integer-like keys first, in
ascending order; the order of the keys shows only in the order of the errors
of `additionalProperties`.) -/
def keysOf : List (String × JSVal) → List String
  | [] => []
  | (k, _) :: rest => k :: (keysOf rest).filter fun k' => k' ≠ k

/-- The error of keyword `type`. -/
def typeError (path : String) (types : List JType) : AjvError :=
  { instancePath := path, keyword := "type",
    params := [("type", match types with
      | [t] => .str t.name
      | ts => .arr (ts.map fun t => .str t.name))] }

/-- Keyword `required` under `allErrors`: one error for each listed property
that is `undefined` in the data. -/
def requiredErrors (path : String) (required : List String) (fs : List (String × JSVal)) :
    List AjvError :=
  (required.filter fun k => !(JSVal.lookup k fs).isDefined).map fun k =>
    { instancePath := path, keyword := "required", params := [("missingProperty", .str k)] }

/-- Keyword `additionalProperties: false` under `allErrors`: one error for each
key of the data that `properties` does not name. -/
def additionalErrors (path : String) (allowed : Bool) (names : List String)
    (fs : List (String × JSVal)) : List AjvError :=
  if allowed then []
  else ((keysOf fs).filter fun k => !names.contains k).map fun k =>
    { instancePath := path, keyword := "additionalProperties",
      params := [("additionalProperty", .str k)] }

/-- The keywords of the number group: `maximum`, then `minimum`; `NaN` fails
both. -/
def numberErrors (path : String) (kw : Keywords) (n : JSNum) : List AjvError :=
  (match kw.maximum with
    | some m =>
      if JSNum.gt n (.fin m) || n == .nan then
        [{ instancePath := path, keyword := "maximum",
           params := [("comparison", .str "<="), ("limit", .num (.fin m))] }]
      else []
    | none => []) ++
  (match kw.minimum with
    | some m =>
      if JSNum.lt n (.fin m) || n == .nan then
        [{ instancePath := path, keyword := "minimum",
           params := [("comparison", .str ">="), ("limit", .num (.fin m))] }]
      else []
    | none => [])

/-- The keywords of the string group: `minLength` (in code points), then
`format`. -/
def stringErrors (A : Ajv) (path : String) (kw : Keywords) (s : String) : List AjvError :=
  (match kw.minLength with
    | some l =>
      if s.length < l then
        [{ instancePath := path, keyword := "minLength",
           params := [("limit", .num (.fin l))] }]
      else []
    | none => []) ++
  (match kw.format with
    | some f =>
      if A.format f s then []
      else [{ instancePath := path, keyword := "format", params := [("format", .str f)] }]
    | none => [])

/-- The keyword `enum` over strings: the value must be one of them. -/
def enumErrors (path : String) (kw : Keywords) (v : JSVal) : List AjvError :=
  match kw.enum with
  | some allowed =>
    if (match v with
        | .str s => allowed.contains s
        | _ => false) then []
    else [{ instancePath := path, keyword := "enum",
            params := [("allowedValues", .arr (allowed.map fun s => .str s))] }]
  | none => []

/-- Whether a schema has a keyword of the rule group of a type, so that Ajv
tests the type inside that group. -/
def hasRulesFor (kw : Keywords) (properties : List (String × Schema)) (items : Option Schema) :
    JType → Bool
  | .number => kw.minimum.isSome || kw.maximum.isSome || kw.format.isSome
  | .string => kw.minLength.isSome || kw.format.isSome
  | .array => kw.minItems.isSome || items.isSome
  | .object => !kw.required.isEmpty || !kw.additionalProperties || !properties.isEmpty

/-- Whether the schema names a single type whose rule group has a keyword in
the schema: Ajv then tests the type inside that group, not beforehand. -/
def testedInGroup (kw : Keywords) (properties : List (String × Schema))
    (items : Option Schema) : Bool :=
  match kw.type with
  | [t] => hasRulesFor kw properties items t
  | _ => false

/-- The error of a rule group whose type the data does not have: a `type`
error when the group is the one of the schema's single type. -/
def wrongGroupType (path : String) (kw : Keywords) (t : JType) : List AjvError :=
  if kw.type = [t] then [typeError path kw.type] else []

/-- Concatenation of the lists that `f` yields for the elements of a list, each
taken with its index. -/
def bindIdx {α β : Type} (f : ℕ → α → List β) : ℕ → List α → List β
  | _, [] => []
  | i, x :: xs => f i x ++ bindIdx f (i + 1) xs

mutual
/-- The validator that Ajv compiles from a schema, with `allErrors`: the list
of errors it records for the data at `path`.  A `type` that no rule group
tests is tested first; then come `enum` and the groups of number, string,
array and object keywords, each applied when the data has the group's type. -/
def Ajv.validate (A : Ajv) : Schema → String → JSVal → List AjvError
  | .node kw properties items, path, v =>
    (if !kw.type.isEmpty && !testedInGroup kw properties items &&
        !(kw.type.any fun t => t.check A.strictNumbers v) then [typeError path kw.type]
      else []) ++
    enumErrors path kw v ++
    (if hasRulesFor kw properties items .number then
      match v with
      | .num n =>
        if JType.check A.strictNumbers .number v then numberErrors path kw n
        else wrongGroupType path kw .number
      | _ => wrongGroupType path kw .number
    else []) ++
    (if hasRulesFor kw properties items .string then
      match v with
      | .str s => stringErrors A path kw s
      | _ => wrongGroupType path kw .string
    else []) ++
    (if hasRulesFor kw properties items .array then
      match v with
      | .arr elems =>
        (match kw.minItems with
          | some l =>
            if elems.length < l then
              [{ instancePath := path, keyword := "minItems",
                 params := [("limit", .num (.fin l))] }]
            else []
          | none => []) ++
        Ajv.validateItems A items path elems
      | _ => wrongGroupType path kw .array
    else []) ++
    (if hasRulesFor kw properties items .object then
      match v with
      | .obj fs =>
        requiredErrors path kw.required fs ++
        additionalErrors path kw.additionalProperties (properties.map fun p => p.1) fs ++
        Ajv.validateProperties A properties path fs
      | _ => wrongGroupType path kw .object
    else [])
/-- Keyword `properties`: each named property that is not `undefined` in the
data is validated against its schema, at `path/name`. -/
def Ajv.validateProperties (A : Ajv) :
    List (String × Schema) → String → List (String × JSVal) → List AjvError
  | [], _, _ => []
  | (name, s) :: rest, path, fs =>
    (if (JSVal.lookup name fs).isDefined then
      Ajv.validate A s (path ++ "/" ++ name) (JSVal.lookup name fs)
    else []) ++ Ajv.validateProperties A rest path fs
/-- Keyword `items`: every element of the array is validated against the
schema, at `path/index`. -/
def Ajv.validateItems (A : Ajv) : Option Schema → String → List JSVal → List AjvError
  | none, _, _ => []
  | some s, path, elems =>
    bindIdx (fun i e => Ajv.validate A s (path ++ "/" ++ toString i) e) 0 elems
end

/-! ### The schema of `invoice/schema.js` -/

/-- The schema `{ type: 'string' }`. -/
def textSchema : Schema := .node { type := [.string] } [] none

/-- The schema `{ type: 'string', minLength: 1 }`. -/
def nonEmptyTextSchema : Schema := .node { type := [.string], minLength := some 1 } [] none

/-- The schema `{ type: 'string', format: 'date' }`. -/
def dateSchema : Schema := .node { type := [.string], format := some "date" } [] none

/-- The schema `{ type: 'number', minimum: 0 }`. -/
def amountSchema : Schema := .node { type := [.number], minimum := some 0 } [] none

/-- The schema `{ type: 'number', minimum: 0, maximum: 100 }`. -/
def percentSchema : Schema :=
  .node { type := [.number], minimum := some 0, maximum := some 100 } [] none

/-- The subschema `properties.business`. -/
def businessSchema : Schema :=
  .node { type := [.object], required := ["name", "address", "phone"],
          additionalProperties := false }
    [("name", nonEmptyTextSchema), ("address", nonEmptyTextSchema),
     ("phone", nonEmptyTextSchema), ("email", textSchema), ("website", textSchema),
     ("gstin", textSchema), ("logoUrl", textSchema)] none

/-- The subschema `properties.customer`. -/
def customerSchema : Schema :=
  .node { type := [.object], required := ["name", "telegramUsername", "telegramUserId"],
          additionalProperties := false }
    [("name", nonEmptyTextSchema), ("telegramUsername", textSchema),
     ("telegramUserId", .node { type := [.string, .number] } [] none),
     ("address", textSchema)] none

/-- The subschema `properties.invoice`. -/
def invoiceMetaSchema : Schema :=
  .node { type := [.object], required := ["invoiceId", "invoiceDate", "currency"],
          additionalProperties := false }
    [("invoiceId", nonEmptyTextSchema), ("invoiceDate", dateSchema), ("dueDate", dateSchema),
     ("currency", .node { type := [.string], enum := some ["INR"] } [] none),
     ("status", textSchema), ("placeOfSupply", textSchema)] none

/-- The subschema `properties.items.items` of a line item. -/
def lineItemSchema : Schema :=
  .node { type := [.object],
          required := ["description", "qty", "rate", "discountPercent", "gstPercent"],
          additionalProperties := false }
    [("description", nonEmptyTextSchema), ("qty", amountSchema), ("rate", amountSchema),
     ("discountPercent", percentSchema), ("gstPercent", percentSchema)] none

/-- The subschema `properties.items`. -/
def itemsSchema : Schema :=
  .node { type := [.array], minItems := some 1 } [] (some lineItemSchema)

/-- The subschema `properties.charges`. -/
def chargesSchema : Schema :=
  .node { type := [.object], additionalProperties := false }
    [("shipping", amountSchema), ("serviceCharge", amountSchema)] none

/-- The subschema `properties.payment`. -/
def paymentSchema : Schema :=
  .node { type := [.object], additionalProperties := false }
    [("upiId", textSchema), ("bankName", textSchema), ("accountNo", textSchema),
     ("ifsc", textSchema), ("razorpayLink", textSchema)] none

/-- The subschema `properties.terms`. -/
def termsSchema : Schema := .node { type := [.array] } [] (some textSchema)

/-- The subschema `properties.receipt`. -/
def receiptSchema : Schema :=
  .node { type := [.object], additionalProperties := false,
          required := ["receiptId", "receiptDate", "paymentMethod", "amountPaid"] }
    [("receiptId", nonEmptyTextSchema), ("receiptDate", dateSchema),
     ("paymentMethod",
       .node { type := [.string], enum := some ["UPI", "CARD", "CASH", "BANK", "OTHER"] } [] none),
     ("transactionId", textSchema), ("amountPaid", amountSchema),
     ("paymentNotes", textSchema)] none

/-- The properties of the root of `InvoiceSchema`, in the order of the source. -/
def invoiceProperties : List (String × Schema) :=
  [("business", businessSchema), ("customer", customerSchema), ("invoice", invoiceMetaSchema),
   ("items", itemsSchema), ("charges", chargesSchema), ("payment", paymentSchema),
   ("terms", termsSchema), ("receipt", receiptSchema)]

/-- Source `InvoiceSchema` of `invoice/schema.js` (its `$id` apart). -/
def InvoiceSchema : Schema :=
  .node { type := [.object], required := ["business", "customer", "invoice", "items"],
          additionalProperties := false } invoiceProperties none

/-- The validator `ajv.compile(schema)` of `utils/validate.js`. -/
def compiledValidate (A : Ajv) (data : JSVal) : List AjvError :=
  A.validate InvoiceSchema "" data

/-- A record without one of its top-level fields; a value that is no object is
left as it is. -/
def removeField (k : String) : JSVal → JSVal
  | .obj fs => .obj (fs.filter fun e => e.1 ≠ k)
  | v => v

/-- The error that Ajv records for a missing required top-level property. -/
def missingProperty (k : String) : AjvError :=
  { instancePath := "", keyword := "required", params := [("missingProperty", .str k)] }

/-- A decimal digit `0` to `9`. -/
def digitOf (c : Char) : Option ℕ :=
  if '0' ≤ c ∧ c ≤ '9' then some (c.toNat - '0'.toNat) else none

/-- The format `date` of `ajv-formats`: `YYYY-MM-DD` with a month from 1 to 12
and a day of that month, February having 29 days in a leap year. -/
def isoDate (s : String) : Bool :=
  match s.toList with
  | [y1, y2, y3, y4, '-', m1, m2, '-', d1, d2] =>
    match digitOf y1, digitOf y2, digitOf y3, digitOf y4, digitOf m1, digitOf m2,
      digitOf d1, digitOf d2 with
    | some a, some b, some c, some d, some e, some f, some g, some h =>
      let year := 1000 * a + 100 * b + 10 * c + d
      let month := 10 * e + f
      let day := 10 * g + h
      let leap := year % 4 = 0 ∧ (year % 100 ≠ 0 ∨ year % 400 = 0)
      let days := if month = 2 then (if leap then 29 else 28)
        else if month = 4 ∨ month = 6 ∨ month = 9 ∨ month = 11 then 30 else 31
      decide (1 ≤ month ∧ month ≤ 12 ∧ 1 ≤ day ∧ day ≤ days)
    | _, _, _, _, _, _, _, _ => false
  | _ => false

/-- An Ajv instance as `utils/validate.js` sets it up, for closed evaluations:
`strict: false` taken to leave `strictNumbers` off, and the format `date`; a
format that is not registered is ignored. -/
def Ajv.standard : Ajv :=
  { strictNumbers := false, format := fun name s => if name = "date" then isoDate s else true }

/-! ## Binary64 rounding: auxiliary facts -/

/-- The computed power agrees with the integer power of two. -/
theorem pow2_eq (e : ℤ) : pow2 e = (2 : ℚ) ^ e := by
  unfold pow2
  split_ifs with h
  · lift e to ℕ using h
    simp
  · push_neg at h
    obtain ⟨n, rfl⟩ : ∃ n : ℕ, e = -(n : ℤ) := ⟨(-e).toNat, by omega⟩
    simp

/-- Powers of two are positive. -/
theorem pow2_pos (e : ℤ) : 0 < pow2 e := by
  rw [pow2_eq]; positivity

/-- With enough fuel, halving brackets `n` between two powers of two. -/
theorem log2Aux_spec : ∀ fuel n : ℕ, n ≤ fuel → n ≠ 0 →
    2 ^ log2Aux fuel n ≤ n ∧ n < 2 ^ (log2Aux fuel n + 1)
  | 0, n, h, h0 => absurd (Nat.le_zero.mp h) h0
  | fuel + 1, n, h, h0 => by
    unfold log2Aux
    split_ifs with h2
    · constructor <;> simp <;> omega
    · have ih := log2Aux_spec fuel (n / 2) (by omega) (by omega)
      obtain ⟨ih1, ih2⟩ := ih
      rw [pow_succ] at ih2 ⊢
      rw [pow_succ]
      constructor <;> omega

/-- The integer logarithm brackets `n` between two powers of two. -/
theorem ilog2_spec (n : ℕ) (h0 : n ≠ 0) : 2 ^ ilog2 n ≤ n ∧ n < 2 ^ (ilog2 n + 1) :=
  log2Aux_spec n n le_rfl h0

/-- The magnitude of a rational from its numerator and denominator. -/
theorem abs_eq_natAbs_div (q : ℚ) : |q| = (q.num.natAbs : ℚ) / (q.den : ℚ) := by
  conv_lhs => rw [← Rat.num_div_den q]
  rw [abs_div, Nat.abs_cast, Nat.cast_natAbs, Int.cast_abs]

/-- The binade brackets a nonzero rational: `2 ^ b ≤ |q| < 2 ^ (b + 1)`. -/
theorem binade_spec (q : ℚ) (hq : q ≠ 0) :
    (2 : ℚ) ^ binade q ≤ |q| ∧ |q| < (2 : ℚ) ^ (binade q + 1) := by
  have hn : q.num.natAbs ≠ 0 := by
    simpa [Int.natAbs_eq_zero] using hq
  have hd : q.den ≠ 0 := q.den_nz
  obtain ⟨n1, n2⟩ := ilog2_spec _ hn
  obtain ⟨d1, d2⟩ := ilog2_spec _ hd
  have hdpos : (0 : ℚ) < q.den := by exact_mod_cast Nat.pos_of_ne_zero hd
  have n1' : (2 : ℚ) ^ (ilog2 q.num.natAbs : ℤ) ≤ (q.num.natAbs : ℚ) := by
    rw [zpow_natCast]; exact_mod_cast n1
  have n2' : (q.num.natAbs : ℚ) < (2 : ℚ) ^ ((ilog2 q.num.natAbs : ℤ) + 1) := by
    rw [show ((ilog2 q.num.natAbs : ℤ) + 1) = ((ilog2 q.num.natAbs + 1 : ℕ) : ℤ) by push_cast; rfl,
      zpow_natCast]; exact_mod_cast n2
  have d1' : (2 : ℚ) ^ (ilog2 q.den : ℤ) ≤ (q.den : ℚ) := by
    rw [zpow_natCast]; exact_mod_cast d1
  have d2' : (q.den : ℚ) < (2 : ℚ) ^ ((ilog2 q.den : ℤ) + 1) := by
    rw [show ((ilog2 q.den : ℤ) + 1) = ((ilog2 q.den + 1 : ℕ) : ℤ) by push_cast; rfl,
      zpow_natCast]; exact_mod_cast d2
  have habs := abs_eq_natAbs_div q
  have two : (2 : ℚ) ≠ 0 := by norm_num
  unfold binade
  simp only [pow2_eq]
  split_ifs with h
  · refine ⟨h, ?_⟩
    rw [habs, div_lt_iff₀ hdpos]
    calc (q.num.natAbs : ℚ) < 2 ^ ((ilog2 q.num.natAbs : ℤ) + 1) := n2'
      _ = 2 ^ ((ilog2 q.num.natAbs : ℤ) - (ilog2 q.den : ℤ) + 1) * 2 ^ (ilog2 q.den : ℤ) := by
          rw [← zpow_add₀ two]; congr 1; ring
      _ ≤ _ := by
          apply mul_le_mul_of_nonneg_left d1'; positivity
  · push_neg at h
    refine ⟨?_, by simpa using h⟩
    rw [habs, le_div_iff₀ hdpos]
    calc (2 : ℚ) ^ ((ilog2 q.num.natAbs : ℤ) - (ilog2 q.den : ℤ) - 1) * (q.den : ℚ)
        ≤ 2 ^ ((ilog2 q.num.natAbs : ℤ) - (ilog2 q.den : ℤ) - 1) * 2 ^ ((ilog2 q.den : ℤ) + 1) := by
          apply mul_le_mul_of_nonneg_left d2'.le; positivity
      _ = 2 ^ (ilog2 q.num.natAbs : ℤ) := by
          rw [← zpow_add₀ two]; congr 1; ring
      _ ≤ _ := n1'

/-- Rounding to the nearest integer moves a value by at most one half. -/
theorem roundHalfEven_err (t : ℚ) : |(roundHalfEven t : ℚ) - t| ≤ 1 / 2 := by
  have h1 := Int.floor_le t
  have h2 := Int.lt_floor_add_one t
  unfold roundHalfEven
  simp only
  split_ifs <;> push_cast <;> rw [abs_le] <;> constructor <;> linarith

/-- Below `2 ^ k` rounding to binary64 does not overflow and moves the value by
at most half a unit in the last place, `2 ^ (k - 54)`. -/
theorem toDouble_err (q : ℚ) (k : ℤ) (hk1 : -1021 ≤ k) (hk2 : k ≤ 1023)
    (hq : |q| < (2 : ℚ) ^ k) :
    ∃ r : ℚ, toDouble q = .fin r ∧ |r - q| ≤ (2 : ℚ) ^ (k - 54) := by
  by_cases h0 : q = 0
  · refine ⟨0, by simp [toDouble, h0], ?_⟩
    simp [h0]; positivity
  have two : (2 : ℚ) ≠ 0 := by norm_num
  obtain ⟨b1, _⟩ := binade_spec q h0
  have hb : binade q < k := by
    have := lt_of_le_of_lt b1 hq
    exact (zpow_lt_zpow_iff_right₀ (by norm_num : (1 : ℚ) < 2)).mp this
  have he : ulpExp q ≤ k - 53 := by
    unfold ulpExp; apply max_le <;> omega
  have hpe : (0 : ℚ) < 2 ^ ulpExp q := by positivity
  have herr : |(roundHalfEven (q / 2 ^ ulpExp q) : ℚ) * 2 ^ ulpExp q - q| ≤ (2 : ℚ) ^ (k - 54) := by
    have h := roundHalfEven_err (q / 2 ^ ulpExp q)
    have e1 : (roundHalfEven (q / 2 ^ ulpExp q) : ℚ) * 2 ^ ulpExp q - q
        = ((roundHalfEven (q / 2 ^ ulpExp q) : ℚ) - q / 2 ^ ulpExp q) * 2 ^ ulpExp q := by
      field_simp
    rw [e1, abs_mul, abs_of_pos hpe]
    calc _ ≤ 1 / 2 * (2 : ℚ) ^ ulpExp q := by
          apply mul_le_mul_of_nonneg_right h hpe.le
      _ ≤ 1 / 2 * (2 : ℚ) ^ (k - 53) := by
          apply mul_le_mul_of_nonneg_left _ (by norm_num)
          exact zpow_le_zpow_right₀ (by norm_num) he
      _ = (2 : ℚ) ^ (k - 54) := by
          rw [show k - 53 = (k - 54) + 1 by ring, zpow_add_one₀ two]; ring
  refine ⟨(roundHalfEven (q / 2 ^ ulpExp q) : ℚ) * 2 ^ ulpExp q, ?_, herr⟩
  unfold toDouble
  simp only [h0, if_false, pow2_eq]
  rw [if_neg]
  push_neg
  have h3 : |(roundHalfEven (q / 2 ^ ulpExp q) : ℚ) * 2 ^ ulpExp q| ≤ |q| + (2 : ℚ) ^ (k - 54) := by
    have := abs_sub_abs_le_abs_sub ((roundHalfEven (q / 2 ^ ulpExp q) : ℚ) * 2 ^ ulpExp q) q
    linarith
  have h4 : (2 : ℚ) ^ (k - 54) < (2 : ℚ) ^ k :=
    zpow_lt_zpow_right₀ (by norm_num) (by omega)
  have h5 : (2 : ℚ) ^ k ≤ (2 : ℚ) ^ (1023 : ℤ) := zpow_le_zpow_right₀ (by norm_num) hk2
  have h6 : (2 : ℚ) ^ (1024 : ℤ) = 2 * (2 : ℚ) ^ (1023 : ℤ) := by
    rw [show (1024 : ℤ) = 1023 + 1 by norm_num, zpow_add_one₀ two]; ring
  rw [h6]; linarith

/-- An amount within `1/512` of `n` hundredths, below `2 ^ 44` in magnitude,
is rounded by `round2` to the double nearest `n / 100`. -/
theorem round2_near (n : ℤ) (q : ℚ) (hq : |q| ≤ 2 ^ 44 - 1)
    (hn : |q - (n : ℚ) / 100| ≤ 1 / 512) :
    round2 (.fin q) = toDouble ((n : ℚ) / 100) := by
  have eps : pow2 (-52) = 1 / 2 ^ 52 := by rw [pow2_eq]; norm_num
  obtain ⟨y1, hy1, e1⟩ := toDouble_err (q + pow2 (-52)) 44 (by norm_num) (by norm_num) (by
    rw [eps]
    have := abs_add q (1 / 2 ^ 52)
    rw [abs_of_pos (by positivity : (0 : ℚ) < 1 / 2 ^ 52)] at this
    norm_num at this hq ⊢
    linarith)
  have e1' : |y1 - (q + 1 / 2 ^ 52)| ≤ 1 / 2 ^ 10 := by
    rw [eps] at e1; norm_num at e1 ⊢; exact e1
  rw [abs_le] at e1' hq hn
  obtain ⟨y2, hy2, e2⟩ := toDouble_err (y1 * 100) 51 (by norm_num) (by norm_num) (by
    rw [abs_lt]; norm_num at hq ⊢; constructor <;> linarith)
  have e2' : |y2 - y1 * 100| ≤ 1 / 2 ^ 3 := by
    norm_num at e2 ⊢; exact e2
  rw [abs_le] at e2'
  have hfl : ⌊y2 + 1 / 2⌋ = n := by
    rw [Int.floor_eq_iff]
    norm_num at e1' e2' hn ⊢
    constructor <;> linarith
  unfold round2 EPSILON
  simp only [JSNum.add, hy1, JSNum.mul, hy2, JSNum.round, hfl, JSNum.div]
  norm_num


/-- Below `2 ^ 44` an amount is rounded by `round2` to the double nearest a
whole number of hundredths that lies within `1/128` of it. -/
theorem round2_fin_cents (q : ℚ) (hq : |q| ≤ 2 ^ 44 - 1) :
    ∃ n : ℤ, round2 (.fin q) = toDouble ((n : ℚ) / 100) ∧ |(n : ℚ) / 100 - q| ≤ 1 / 128 := by
  have eps : pow2 (-52) = 1 / 2 ^ 52 := by rw [pow2_eq]; norm_num
  obtain ⟨y1, hy1, e1⟩ := toDouble_err (q + pow2 (-52)) 44 (by norm_num) (by norm_num) (by
    rw [eps]
    have := abs_add q (1 / 2 ^ 52)
    rw [abs_of_pos (by positivity : (0 : ℚ) < 1 / 2 ^ 52)] at this
    norm_num at this hq ⊢
    linarith)
  have e1' : |y1 - (q + 1 / 2 ^ 52)| ≤ 1 / 2 ^ 10 := by
    rw [eps] at e1; norm_num at e1 ⊢; exact e1
  rw [abs_le] at e1' hq
  obtain ⟨y2, hy2, e2⟩ := toDouble_err (y1 * 100) 51 (by norm_num) (by norm_num) (by
    rw [abs_lt]; norm_num at hq ⊢; constructor <;> linarith)
  have e2' : |y2 - y1 * 100| ≤ 1 / 2 ^ 3 := by
    norm_num at e2 ⊢; exact e2
  rw [abs_le] at e2'
  have f1 := Int.floor_le (y2 + 1 / 2)
  have f2 := Int.lt_floor_add_one (y2 + 1 / 2)
  refine ⟨⌊y2 + 1 / 2⌋, ?_, ?_⟩
  · unfold round2 EPSILON
    simp only [JSNum.add, hy1, JSNum.mul, hy2, JSNum.round, JSNum.div]
    norm_num
  · rw [abs_le]
    norm_num at e1' e2' ⊢
    obtain ⟨a1, a2⟩ := e1'
    obtain ⟨b1, b2⟩ := e2'
    constructor <;> linarith

/-- C3 (counterexample).  At `x = -(1/8) - 2^(-52)`, a double, the nudged value
is exactly `-0.125` and its hundredfold the tie `-12.5`: `round2` returns the
double nearest `-0.12`, while rounding half away from zero gives `-0.13`. -/
theorem round2_tie_toward_positive :
    toDouble (-(1 / 8) - 1 / 2 ^ 52) = .fin (-(1 / 8) - 1 / 2 ^ 52) ∧
    round2 (.fin (-(1 / 8) - 1 / 2 ^ 52)) = toDouble (-12 / 100) ∧
    round2HalfAway (-(1 / 8) - 1 / 2 ^ 52) = -13 / 100 ∧
    round2 (.fin (-(1 / 8) - 1 / 2 ^ 52)) ≠ .fin (round2HalfAway (-(1 / 8) - 1 / 2 ^ 52)) ∧
    round2 (.fin (-(1 / 8) - 1 / 2 ^ 52)) ≠ toDouble (round2HalfAway (-(1 / 8) - 1 / 2 ^ 52)) := by
  decide!

/-- C4 (counterexample).  At `x = 2^45 + 1/8 = 35184372088832.125`, a double,
`round2 x` is the double `35184372088832.1328125` and rounding that once more
gives the different double `35184372088832.140625`. -/
theorem round2_not_idempotent_large :
    toDouble (2 ^ 45 + 1 / 8) = .fin (2 ^ 45 + 1 / 8) ∧
    round2 (.fin (2 ^ 45 + 1 / 8)) = .fin (4503599627370513 / 128) ∧
    round2 (round2 (.fin (2 ^ 45 + 1 / 8))) = .fin (2251799813685257 / 64) ∧
    round2 (round2 (.fin (2 ^ 45 + 1 / 8))) ≠ round2 (.fin (2 ^ 45 + 1 / 8)) := by
  decide!

/-- C4 (amended).  For every finite `x` with `|x| ≤ 10^13`, `round2` is
idempotent: `round2 (round2 x) = round2 x`. -/
theorem round2_idempotent_bounded (q : ℚ) (hq : |q| ≤ 10 ^ 13) :
    round2 (round2 (.fin q)) = round2 (.fin q) := by
  obtain ⟨n, hn, hnear⟩ := round2_fin_cents q (by norm_num at hq ⊢; linarith)
  rw [abs_le] at hnear hq
  obtain ⟨r, hr, er⟩ := toDouble_err ((n : ℚ) / 100) 44 (by norm_num) (by norm_num) (by
    rw [abs_lt]; norm_num at hnear hq ⊢; constructor <;> linarith)
  have er' : |r - (n : ℚ) / 100| ≤ 1 / 2 ^ 10 := by norm_num at er ⊢; exact er
  rw [hn, hr]
  rw [abs_le] at er'
  have := round2_near n r (by
    rw [abs_le]; norm_num at hnear hq er' ⊢; constructor <;> linarith) (by
    rw [abs_le]; norm_num at er' ⊢; constructor <;> linarith)
  rw [this, hr]

/-- C4 (witness): idempotence at `x = 1234.5678`. -/
theorem round2_idempotent_bounded_witness :
    |(12345678 / 10000 : ℚ)| ≤ 10 ^ 13 ∧
    round2 (round2 (.fin (12345678 / 10000))) = round2 (.fin (12345678 / 10000)) :=
  ⟨by norm_num [abs_le], round2_idempotent_bounded (12345678 / 10000) (by norm_num [abs_le])⟩

/-! ## Totals: the routines against the reference -/

/-- Zero rounds to zero. -/
theorem toDouble_zero : toDouble 0 = .fin 0 := by
  simp [toDouble]

/-- The amount zero is a fixed point of `round2`. -/
theorem round2_zero : round2 (.fin 0) = .fin 0 := by
  decide!

/-- The coercion `Number(n || 0)` returns a number `n` other than `NaN`. -/
theorem toNumber_or_zero (H : Host) (n : JSNum) (hn : n ≠ .nan) :
    JSVal.toNumber H (JSVal.or (.num n) (.num (.fin 0))) = n := by
  cases n with
  | nan => exact absurd rfl hn
  | inf b => simp [JSVal.or, JSVal.truthy, JSVal.toNumber]
  | fin q =>
    by_cases hq : q = 0
    · simp [JSVal.or, JSVal.truthy, JSVal.toNumber, hq]
    · simp [JSVal.or, JSVal.truthy, JSVal.toNumber, hq]

/-- A finite number is not `NaN`. -/
theorem ne_nan_of_isFinite (n : JSNum) (h : n.isFinite = true) : n ≠ .nan := by
  cases n <;> simp [JSNum.isFinite] at h ⊢

/-- A finite numeric field is read back unchanged by `Number(v.k || 0)`. -/
theorem numberOr0_of_finite (H : Host) (fs : List (String × JSVal)) (k : String)
    (h : (numField (.obj fs) k).isFinite = true) :
    numberOr0 H (.obj fs) k = some (numField (.obj fs) k) := by
  simp only [numberOr0, numField, JSVal.get, JSVal.getOpt, Option.map_some'] at h ⊢
  generalize JSVal.lookup k fs = x at h ⊢
  cases x with
  | num n => simp only [toNumber_or_zero H n (ne_nan_of_isFinite n h)]
  | _ => simp [JSNum.isFinite] at h

/-- On an item with finite numeric fields the callback of the receipt
generator returns the reference line amounts. -/
theorem receipt_computeItem_eq (H : Host) (v : JSVal) (h : finiteItem v = true) :
    Receipt.computeItem H v = some
      { item := v, taxable := (specLine (lineItemOf v)).taxable,
        gstAmount := (specLine (lineItemOf v)).gstAmount,
        lineTotal := (specLine (lineItemOf v)).lineTotal } := by
  cases v with
  | obj fs =>
    simp only [finiteItem, Bool.and_eq_true] at h
    obtain ⟨⟨⟨h1, h2⟩, h3⟩, h4⟩ := h
    simp only [Receipt.computeItem, numberOr0_of_finite H fs _ h1,
      numberOr0_of_finite H fs _ h2, numberOr0_of_finite H fs _ h3,
      numberOr0_of_finite H fs _ h4, specLine, lineItemOf]
  | _ => simp [finiteItem] at h

/-- On an item with finite numeric fields the callback of the invoice
generator returns the reference line amounts. -/
theorem invoice_computeItem_eq (H : Host) (index : ℕ) (v : JSVal) (h : finiteItem v = true) :
    ∃ c, Invoice.computeItem H index v = some c ∧ c.item = v ∧ c.sr = index + 1 ∧
      c.taxable = (specLine (lineItemOf v)).taxable ∧
      c.gstAmount = (specLine (lineItemOf v)).gstAmount ∧
      c.lineTotal = (specLine (lineItemOf v)).lineTotal := by
  cases v with
  | obj fs =>
    simp only [finiteItem, Bool.and_eq_true] at h
    obtain ⟨⟨⟨h1, h2⟩, h3⟩, h4⟩ := h
    simp only [Invoice.computeItem, numberOr0_of_finite H fs _ h1,
      numberOr0_of_finite H fs _ h2, numberOr0_of_finite H fs _ h3,
      numberOr0_of_finite H fs _ h4, specLine, lineItemOf]
    exact ⟨_, rfl, rfl, rfl, rfl, rfl, rfl⟩
  | _ => simp [finiteItem] at h

/-- A map whose callback succeeds on every element succeeds, and its results
correspond to the elements one by one. -/
theorem mapIdxOpt_forall₂ {α β : Type} (f : ℕ → α → Option β) (P : α → β → Prop) :
    ∀ (xs : List α) (i : ℕ), (∀ j, ∀ x ∈ xs, ∃ y, f j x = some y ∧ P x y) →
      ∃ ys, mapIdxOpt f i xs = some ys ∧ List.Forall₂ P xs ys
  | [], _, _ => ⟨[], rfl, List.Forall₂.nil⟩
  | x :: xs, i, h => by
    obtain ⟨y, hy, hp⟩ := h i x (List.mem_cons_self _ _)
    obtain ⟨ys, hys, hall⟩ := mapIdxOpt_forall₂ f P xs (i + 1)
      (fun j z hz => h j z (List.mem_cons_of_mem _ hz))
    exact ⟨y :: ys, by simp [mapIdxOpt, hy, hys], List.Forall₂.cons hp hall⟩

/-- Corresponding lists have equal images under corresponding projections. -/
theorem map_eq_of_forall₂ {α β γ : Type} (P : α → β → Prop) (g : α → γ) (g' : β → γ)
    (hg : ∀ x y, P x y → g' y = g x) :
    ∀ (xs : List α) (ys : List β), List.Forall₂ P xs ys → ys.map g' = xs.map g
  | _, _, List.Forall₂.nil => rfl
  | _, _, List.Forall₂.cons hp hall => by
    simp [hg _ _ hp, map_eq_of_forall₂ P g g' hg _ _ hall]

/-- Every result of a corresponding list has a property that all
correspondences force. -/
theorem forall_of_forall₂ {α β : Type} (P : α → β → Prop) (Q : β → Prop)
    (h : ∀ x y, P x y → Q y) :
    ∀ (xs : List α) (ys : List β), List.Forall₂ P xs ys → ∀ y ∈ ys, Q y
  | _, _, List.Forall₂.nil => fun _ hy => by simp at hy
  | _, _, List.Forall₂.cons hp hall => fun y hy => by
    rcases List.mem_cons.mp hy with rfl | hy'
    · exact h _ _ hp
    · exact forall_of_forall₂ P Q h _ _ hall y hy'

/-- The combined charge of an accepted charges value is the reference one. -/
theorem shippingOf_eq (H : Host) (charges : JSVal) (hc : chargesOk charges = true) :
    shippingOf H charges = some (round2 (JSNum.add (chargeOf charges "shipping")
      (chargeOf charges "serviceCharge"))) := by
  have key : ∀ (fs : List (String × JSVal)) (k : String),
      chargeFieldOk (JSVal.lookup k fs) = true →
      numberOr0 H (.obj fs) k = some (chargeOf (.obj fs) k) := by
    intro fs k h
    simp only [numberOr0, chargeOf, JSVal.get, JSVal.getOpt, Option.map_some']
    generalize JSVal.lookup k fs = x at h ⊢
    cases x with
    | undefined => simp [JSVal.or, JSVal.truthy, JSVal.toNumber]
    | num n =>
      simp only [chargeFieldOk] at h
      simp only [toNumber_or_zero H n (ne_nan_of_isFinite n h)]
    | _ => simp [chargeFieldOk] at h
  cases charges with
  | undefined =>
    simp [shippingOf, numberOr0, JSVal.get, JSVal.lookup, JSVal.or, JSVal.truthy,
      JSVal.toNumber, chargeOf, JSVal.getOpt]
  | obj fs =>
    simp only [chargesOk, Bool.and_eq_true] at hc
    simp only [shippingOf, key fs _ hc.1, key fs _ hc.2]
  | _ => simp [chargesOk] at hc

/-- The reduction `reduce((sum, i) => sum + f(i), 0)` is the reference sum of
the mapped list. -/
theorem foldl_add_eq_specSum {β : Type} (f : β → JSNum) (ys : List β) :
    ys.foldl (fun sum i => JSNum.add sum (f i)) (.fin 0) = specSum (ys.map f) := by
  simp [specSum, List.foldl_map]

/-- C1 (counterexample).  For the item `{qty: 1, rate: 16.75,
discountPercent: 0, gstPercent: 18}` both routines compute taxable `16.75` and
gstAmount `3.01`, the double product `16.75 * (18 / 100)` being
`3.0149999999999997`; the claimed `round2(taxable*gstPercent/100)` is `3.02`,
both when the product is formed first in double arithmetic and when the exact
value `3.015` is rounded half away from zero. -/
theorem gstAmount_differs_from_claimed :
    (Receipt.computeTotals Host.numeric
        [mkItem "x" (.fin 1) (.fin (67 / 4)) (.fin 0) (.fin 18)] .undefined).map
      (fun t => t.computedItems.map fun c => (c.taxable, c.gstAmount))
      = some [(.fin (67 / 4), toDouble (301 / 100))] ∧
    (Invoice.computeTotals Host.numeric
        [mkItem "x" (.fin 1) (.fin (67 / 4)) (.fin 0) (.fin 18)] .undefined).map
      (fun t => t.computedItems.map fun c => (c.taxable, c.gstAmount))
      = some [(.fin (67 / 4), toDouble (301 / 100))] ∧
    claimedGstAmount (.fin (67 / 4)) (.fin 18) = toDouble (302 / 100) ∧
    round2HalfAway (67 / 4 * 18 / 100) = 302 / 100 ∧
    toDouble (301 / 100) ≠ toDouble (302 / 100) := by
  decide!

/-- C1 (amended).  For item objects with finite numeric fields and an optional
charges object, both `computeTotals` routines return, without throwing, the
reference totals in double arithmetic, where
`gstAmount = round2(taxable * (gstPercent/100))` divides the percentage by
`100` first: the lines in input order with the reference taxable, GST and total
amounts, and the reference subtotal, gstTotal, shipping and grandTotal; the
invoice routine also the reference discountTotal, and roundOff `0`. -/
theorem computeTotals_refines_spec (H : Host) (items : List JSVal) (charges : JSVal)
    (hi : ∀ v ∈ items, finiteItem v = true) (hc : chargesOk charges = true) :
    (∃ t, Receipt.computeTotals H items charges = some t ∧
      t.computedItems.map (fun c => c.item) = items ∧
      t.computedItems.map (fun c => LineAmounts.mk c.taxable c.gstAmount c.lineTotal)
        = (specOf items charges).lines ∧
      t.summary.subtotal = (specOf items charges).subtotal ∧
      t.summary.gstTotal = (specOf items charges).gstTotal ∧
      t.summary.shipping = (specOf items charges).shipping ∧
      t.summary.grandTotal = (specOf items charges).grandTotal) ∧
    (∃ t, Invoice.computeTotals H items charges = some t ∧
      t.computedItems.map (fun c => c.item) = items ∧
      t.computedItems.map (fun c => LineAmounts.mk c.taxable c.gstAmount c.lineTotal)
        = (specOf items charges).lines ∧
      t.summary.subtotal = (specOf items charges).subtotal ∧
      t.summary.gstTotal = (specOf items charges).gstTotal ∧
      t.summary.discountTotal = (specOf items charges).discountTotal ∧
      t.summary.shipping = (specOf items charges).shipping ∧
      t.summary.grandTotal = (specOf items charges).grandTotal ∧
      t.summary.roundOff = .fin 0) := by
  constructor
  · obtain ⟨ys, hys, hall⟩ := mapIdxOpt_forall₂ (fun _ item => Receipt.computeItem H item)
      (fun v c => c.item = v ∧ c.taxable = (specLine (lineItemOf v)).taxable ∧
        c.gstAmount = (specLine (lineItemOf v)).gstAmount ∧
        c.lineTotal = (specLine (lineItemOf v)).lineTotal) items 0
      (fun _ x hx => ⟨_, receipt_computeItem_eq H x (hi x hx), rfl, rfl, rfl, rfl⟩)
    have m0 := map_eq_of_forall₂ _ (fun v => v) (fun c : Receipt.ComputedItem => c.item)
      (fun _ _ h => h.1) _ _ hall
    have m1 := map_eq_of_forall₂ _ (fun v => (specLine (lineItemOf v)).taxable)
      (fun c : Receipt.ComputedItem => c.taxable) (fun _ _ h => h.2.1) _ _ hall
    have m2 := map_eq_of_forall₂ _ (fun v => (specLine (lineItemOf v)).gstAmount)
      (fun c : Receipt.ComputedItem => c.gstAmount) (fun _ _ h => h.2.2.1) _ _ hall
    have m3 := map_eq_of_forall₂ _ (fun v => specLine (lineItemOf v))
      (fun c : Receipt.ComputedItem => LineAmounts.mk c.taxable c.gstAmount c.lineTotal)
      (fun _ _ h => by dsimp only; rw [h.2.1, h.2.2.1, h.2.2.2]) _ _ hall
    refine ⟨_, by simp only [Receipt.computeTotals, hys, shippingOf_eq H charges hc]; rfl, ?_⟩
    simp only [foldl_add_eq_specSum, m1, m2, m3]
    simp [specOf, specTotals, m0, List.map_map, Function.comp_def]
  · obtain ⟨ys, hys, hall⟩ := mapIdxOpt_forall₂ (Invoice.computeItem H)
      (fun v c => c.item = v ∧ c.taxable = (specLine (lineItemOf v)).taxable ∧
        c.gstAmount = (specLine (lineItemOf v)).gstAmount ∧
        c.lineTotal = (specLine (lineItemOf v)).lineTotal ∧ finiteItem v = true) items 0
      (fun j x hx => by
        obtain ⟨c, h1, h2, _, h4, h5, h6⟩ := invoice_computeItem_eq H j x (hi x hx)
        exact ⟨c, h1, h2, h4, h5, h6, hi x hx⟩)
    have m0 := map_eq_of_forall₂ _ (fun v => v) (fun c : Invoice.ComputedItem => c.item)
      (fun _ _ h => h.1) _ _ hall
    have m1 := map_eq_of_forall₂ _ (fun v => (specLine (lineItemOf v)).taxable)
      (fun c : Invoice.ComputedItem => c.taxable) (fun _ _ h => h.2.1) _ _ hall
    have m2 := map_eq_of_forall₂ _ (fun v => (specLine (lineItemOf v)).gstAmount)
      (fun c : Invoice.ComputedItem => c.gstAmount) (fun _ _ h => h.2.2.1) _ _ hall
    have m3 := map_eq_of_forall₂ _ (fun v => specLine (lineItemOf v))
      (fun c : Invoice.ComputedItem => LineAmounts.mk c.taxable c.gstAmount c.lineTotal)
      (fun _ _ h => by dsimp only; rw [h.2.1, h.2.2.1, h.2.2.2.1]) _ _ hall
    have m4 := map_eq_of_forall₂ _
      (fun v => JSNum.sub (JSNum.mul (lineItemOf v).qty (lineItemOf v).rate)
        (specLine (lineItemOf v)).taxable)
      (fun c : Invoice.ComputedItem =>
        JSNum.sub (JSNum.mul (JSVal.toNumber H (c.item.getOpt "qty"))
          (JSVal.toNumber H (c.item.getOpt "rate"))) c.taxable)
      (fun v c h => by
        obtain ⟨h1, h2, _, _, hf⟩ := h
        dsimp only
        rw [h1, h2]
        cases v with
        | obj fs =>
          simp only [finiteItem, Bool.and_eq_true] at hf
          obtain ⟨⟨⟨f1, f2⟩, _⟩, _⟩ := hf
          simp only [numField, JSVal.getOpt, lineItemOf] at f1 f2 ⊢
          generalize JSVal.lookup "qty" fs = x at f1 ⊢
          generalize JSVal.lookup "rate" fs = y at f2 ⊢
          cases x <;> cases y <;> simp [JSNum.isFinite, JSVal.toNumber] at f1 f2 ⊢
        | _ => simp [finiteItem] at hf) _ _ hall
    have hd : ys.foldl (Invoice.discountStep H) (.fin 0) = specSum (ys.map fun c =>
        JSNum.sub (JSNum.mul (JSVal.toNumber H (c.item.getOpt "qty"))
          (JSVal.toNumber H (c.item.getOpt "rate"))) c.taxable) := by
      rw [← foldl_add_eq_specSum]; rfl
    refine ⟨_, by simp only [Invoice.computeTotals, hys, shippingOf_eq H charges hc]; rfl, ?_⟩
    simp only [foldl_add_eq_specSum, hd, m1, m2, m3, m4]
    simp [specOf, specTotals, m0, List.map_map, Function.comp_def]

/-- C1 (witness): Scenario B.  Its items and charges meet the hypotheses, and
the reference totals, which both routines return, are the figures of the
specification: lines 900.00/162.00/1062.00 and 750.00/37.50/787.50, subtotal
1650.00, gstTotal 199.50, shipping 75.00, grandTotal 1924.50 (and discountTotal
100.00, roundOff 0). -/
theorem computeTotals_scenarioB :
    ((∃ t, Receipt.computeTotals Host.numeric scenarioBItems scenarioBCharges = some t ∧
      t.computedItems.map (fun c => c.item) = scenarioBItems ∧
      t.computedItems.map (fun c => LineAmounts.mk c.taxable c.gstAmount c.lineTotal)
        = (specOf scenarioBItems scenarioBCharges).lines ∧
      t.summary.subtotal = (specOf scenarioBItems scenarioBCharges).subtotal ∧
      t.summary.gstTotal = (specOf scenarioBItems scenarioBCharges).gstTotal ∧
      t.summary.shipping = (specOf scenarioBItems scenarioBCharges).shipping ∧
      t.summary.grandTotal = (specOf scenarioBItems scenarioBCharges).grandTotal) ∧
    (∃ t, Invoice.computeTotals Host.numeric scenarioBItems scenarioBCharges = some t ∧
      t.computedItems.map (fun c => c.item) = scenarioBItems ∧
      t.computedItems.map (fun c => LineAmounts.mk c.taxable c.gstAmount c.lineTotal)
        = (specOf scenarioBItems scenarioBCharges).lines ∧
      t.summary.subtotal = (specOf scenarioBItems scenarioBCharges).subtotal ∧
      t.summary.gstTotal = (specOf scenarioBItems scenarioBCharges).gstTotal ∧
      t.summary.discountTotal = (specOf scenarioBItems scenarioBCharges).discountTotal ∧
      t.summary.shipping = (specOf scenarioBItems scenarioBCharges).shipping ∧
      t.summary.grandTotal = (specOf scenarioBItems scenarioBCharges).grandTotal ∧
      t.summary.roundOff = .fin 0)) ∧
    specOf scenarioBItems scenarioBCharges =
      { lines := [⟨.fin 900, .fin 162, .fin 1062⟩, ⟨.fin 750, .fin (75 / 2), .fin (1575 / 2)⟩],
        subtotal := .fin 1650, gstTotal := .fin (399 / 2), discountTotal := .fin 100,
        shipping := .fin 75, grandTotal := .fin (3849 / 2), roundOff := .fin 0 } :=
  ⟨computeTotals_refines_spec Host.numeric scenarioBItems scenarioBCharges
    (by decide) (by decide), by decide!⟩

/-! ## Line amounts in hundredths -/

/-- Nearest-even rounding never falls below the floor. -/
theorem floor_le_roundHalfEven (t : ℚ) : ⌊t⌋ ≤ roundHalfEven t := by
  unfold roundHalfEven
  simp only
  split_ifs <;> omega

/-- Nearest-even rounding does not go past an integer above the value. -/
theorem roundHalfEven_le_of_le (t : ℚ) (m : ℤ) (h : t ≤ m) : roundHalfEven t ≤ m := by
  have h1 := Int.floor_le t
  have hfm : ⌊t⌋ ≤ m := Int.floor_le_iff.mpr (by linarith)
  unfold roundHalfEven
  simp only
  by_cases hr : t - ⌊t⌋ < 1 / 2
  · rw [if_pos hr]; exact hfm
  · have hlt : (⌊t⌋ : ℚ) < m := by push_neg at hr; linarith
    have : ⌊t⌋ < m := by exact_mod_cast hlt
    rw [if_neg hr]
    split_ifs <;> omega

/-- Nearest-even rounding does not go below an integer under the value. -/
theorem le_roundHalfEven_of_le (t : ℚ) (m : ℤ) (h : (m : ℚ) ≤ t) : m ≤ roundHalfEven t :=
  le_trans (Int.le_floor.mpr h) (floor_le_roundHalfEven t)

/-- Rounding to binary64 does not cross a power of two: a value of magnitude
at least `2 ^ k` keeps a magnitude of at least `2 ^ k`. -/
theorem toDouble_abs_ge (q r : ℚ) (k : ℤ) (hk : -1074 ≤ k) (hq : (2 : ℚ) ^ k ≤ |q|)
    (h : toDouble q = .fin r) : (2 : ℚ) ^ k ≤ |r| := by
  have two : (2 : ℚ) ≠ 0 := by norm_num
  have hkpos : (0 : ℚ) < 2 ^ k := by positivity
  have h0 : q ≠ 0 := by
    rintro rfl
    simp at hq
    linarith
  obtain ⟨b1, b2⟩ := binade_spec q h0
  have hkb : k ≤ binade q := by
    have := lt_of_le_of_lt hq b2
    have := (zpow_lt_zpow_iff_right₀ (by norm_num : (1 : ℚ) < 2)).mp this
    omega
  have heb : ulpExp q ≤ binade q := by
    unfold ulpExp; apply max_le <;> omega
  have hpe : (0 : ℚ) < 2 ^ ulpExp q := by positivity
  have hr : r = (roundHalfEven (q / 2 ^ ulpExp q) : ℚ) * 2 ^ ulpExp q := by
    unfold toDouble at h
    simp only [h0, if_false, pow2_eq] at h
    split_ifs at h
    exact (JSNum.fin.inj h).symm
  obtain ⟨n, hn⟩ : ∃ n : ℕ, binade q - ulpExp q = n := ⟨(binade q - ulpExp q).toNat, by omega⟩
  have hM : (((2 ^ n : ℕ) : ℤ) : ℚ) * 2 ^ ulpExp q = 2 ^ binade q := by
    push_cast
    rw [← zpow_natCast, ← hn, ← zpow_add₀ two]
    congr 1; ring
  have hkb' : (2 : ℚ) ^ k ≤ 2 ^ binade q := zpow_le_zpow_right₀ (by norm_num) hkb
  rcases lt_or_gt_of_ne h0 with hneg | hpos
  · rw [abs_of_neg hneg] at b1
    have ht : q / 2 ^ ulpExp q ≤ ((-(2 ^ n : ℕ) : ℤ) : ℚ) := by
      rw [div_le_iff₀ hpe]
      push_cast at hM ⊢
      linarith
    have := roundHalfEven_le_of_le _ _ ht
    have hc : (roundHalfEven (q / 2 ^ ulpExp q) : ℚ) ≤ ((-(2 ^ n : ℕ) : ℤ) : ℚ) := by
      exact_mod_cast this
    have hle : r ≤ -(2 : ℚ) ^ binade q := by
      rw [hr, ← hM]
      have := mul_le_mul_of_nonneg_right hc hpe.le
      push_cast at this ⊢
      linarith
    have : -r ≤ |r| := neg_le_abs r
    linarith
  · rw [abs_of_pos hpos] at b1
    have ht : (((2 ^ n : ℕ) : ℤ) : ℚ) ≤ q / 2 ^ ulpExp q := by
      rw [le_div_iff₀ hpe]
      linarith
    have := le_roundHalfEven_of_le _ _ ht
    have hc : (((2 ^ n : ℕ) : ℤ) : ℚ) ≤ (roundHalfEven (q / 2 ^ ulpExp q) : ℚ) := by
      exact_mod_cast this
    have hle : (2 : ℚ) ^ binade q ≤ r := by
      rw [hr, ← hM]
      exact mul_le_mul_of_nonneg_right hc hpe.le
    have : r ≤ |r| := le_abs_self r
    linarith

/-- A finite result of `round2` is the double nearest a whole number of
hundredths. -/
theorem round2_fin_is_cents (x : JSNum) (t : ℚ) (h : round2 x = .fin t) :
    ∃ n : ℤ, toDouble ((n : ℚ) / 100) = .fin t := by
  unfold round2 EPSILON at h
  cases x with
  | nan => simp [JSNum.add, JSNum.mul, JSNum.round, JSNum.div] at h
  | inf b => simp [JSNum.add, JSNum.mul, JSNum.round, JSNum.div] at h
  | fin q =>
    simp only [JSNum.add] at h
    cases h1 : toDouble (q + pow2 (-52)) with
    | nan => simp [h1, JSNum.mul, JSNum.round, JSNum.div] at h
    | inf b => simp [h1, JSNum.mul, JSNum.round, JSNum.div] at h
    | fin y1 =>
      rw [h1] at h
      simp only [JSNum.mul] at h
      cases h2 : toDouble (y1 * 100) with
      | nan => simp [h2, JSNum.round, JSNum.div] at h
      | inf b => simp [h2, JSNum.round, JSNum.div] at h
      | fin y2 =>
        rw [h2] at h
        simp only [JSNum.round, JSNum.div] at h
        norm_num at h
        exact ⟨_, h⟩

/-- The double nearest `n / 100`, when below `2 ^ 43` in magnitude, lies within
`2 ^ (-11)` of `n / 100`, and `n` is its number of hundredths. -/
theorem cents_of_toDouble (n : ℤ) (t : ℚ) (h : toDouble ((n : ℚ) / 100) = .fin t)
    (ht : |t| < 2 ^ 43) : |t - (n : ℚ) / 100| ≤ 1 / 2 ^ 11 ∧ cents (.fin t) = n := by
  have hlt : |(n : ℚ) / 100| < (2 : ℚ) ^ (43 : ℤ) := by
    by_contra hge
    push_neg at hge
    have := toDouble_abs_ge _ t 43 (by norm_num) hge h
    norm_num at this ht
    linarith
  obtain ⟨r, hr, er⟩ := toDouble_err _ 43 (by norm_num) (by norm_num) hlt
  rw [h] at hr
  have hrt : t = r := JSNum.fin.inj hr
  subst hrt
  have er' : |t - (n : ℚ) / 100| ≤ 1 / 2 ^ 11 := by norm_num at er ⊢; exact er
  refine ⟨er', ?_⟩
  rw [abs_le] at er'
  obtain ⟨a1, a2⟩ := er'
  unfold cents
  simp only
  rw [Int.floor_eq_iff]
  norm_num at a1 a2 ⊢
  constructor <;> linarith

/-- Two finite results of `round2`, each at most `8 * 10^12` in magnitude, stand
for whole numbers of hundredths, and `round2` of their sum is the double
nearest the sum of those hundredths. -/
theorem round2_add_cents (X Y : JSNum) (t g : ℚ) (hx : round2 X = .fin t)
    (hy : round2 Y = .fin g) (ht : |t| ≤ 8 * 10 ^ 12) (hg : |g| ≤ 8 * 10 ^ 12) :
    JSNum.fin t = toDouble ((cents (.fin t) : ℚ) / 100) ∧
    JSNum.fin g = toDouble ((cents (.fin g) : ℚ) / 100) ∧
    round2 (JSNum.add (.fin t) (.fin g))
      = toDouble (((cents (.fin t) + cents (.fin g) : ℤ) : ℚ) / 100) := by
  obtain ⟨n, hn⟩ := round2_fin_is_cents X t hx
  obtain ⟨m, hm⟩ := round2_fin_is_cents Y g hy
  obtain ⟨en, cn⟩ := cents_of_toDouble n t hn (by norm_num at ht ⊢; linarith)
  obtain ⟨em, cm⟩ := cents_of_toDouble m g hm (by norm_num at hg ⊢; linarith)
  rw [cn, cm]
  refine ⟨hn.symm, hm.symm, ?_⟩
  rw [abs_le] at ht hg en em
  obtain ⟨s, hs, es⟩ := toDouble_err (t + g) 44 (by norm_num) (by norm_num) (by
    rw [abs_lt]; norm_num at ht hg ⊢; constructor <;> linarith)
  have es' : |s - (t + g)| ≤ 1 / 2 ^ 10 := by norm_num at es ⊢; exact es
  rw [abs_le] at es'
  simp only [JSNum.add, hs]
  apply round2_near
  · rw [abs_le]; norm_num at ht hg es' ⊢; constructor <;> linarith
  · rw [abs_le]; push_cast; norm_num at en em es' ⊢; constructor <;> linarith

/-- The reference line amounts, when taxable and gstAmount are finite and at
most `8 * 10^12` in magnitude, are whole numbers of hundredths held as doubles,
the line total being the sum of the two numbers of hundredths. -/
theorem specLine_cents (L : LineItem) (t g : ℚ) (ht : (specLine L).taxable = .fin t)
    (hg : (specLine L).gstAmount = .fin g) (bt : |t| ≤ 8 * 10 ^ 12) (bg : |g| ≤ 8 * 10 ^ 12) :
    (specLine L).taxable = toDouble ((cents (specLine L).taxable : ℚ) / 100) ∧
    (specLine L).gstAmount = toDouble ((cents (specLine L).gstAmount : ℚ) / 100) ∧
    (specLine L).lineTotal = toDouble
      (((cents (specLine L).taxable + cents (specLine L).gstAmount : ℤ) : ℚ) / 100) := by
  have key := round2_add_cents _ _ t g
    (by simpa only [specLine] using ht) (by simpa only [specLine] using hg) bt bg
  rw [ht, hg]
  refine ⟨key.1, key.2.1, ?_⟩
  rw [← key.2.2]
  simp only [specLine] at ht hg ⊢
  rw [ht] at hg ⊢
  rw [hg]

/-- C2 (counterexample).  For the item `{qty: 1, rate: 1.1, discountPercent: 0,
gstPercent: 10}` both routines compute taxable `1.1`, gstAmount `0.11` and
lineTotal `1.21` (the doubles nearest these), but `taxable + gstAmount` is the
double `1.2100000000000002`, and also as exact values the double `1.21` is not
the sum of the doubles `1.1` and `0.11`. -/
theorem lineTotal_ne_taxable_plus_gst :
    (Receipt.computeTotals Host.numeric
        [mkItem "x" (.fin 1) (toDouble (11 / 10)) (.fin 0) (.fin 10)] .undefined).map
      (fun t => t.computedItems.map fun c => (c.taxable, c.gstAmount, c.lineTotal))
      = some [(toDouble (11 / 10), toDouble (11 / 100), toDouble (121 / 100))] ∧
    (Invoice.computeTotals Host.numeric
        [mkItem "x" (.fin 1) (toDouble (11 / 10)) (.fin 0) (.fin 10)] .undefined).map
      (fun t => t.computedItems.map fun c => (c.taxable, c.gstAmount, c.lineTotal))
      = some [(toDouble (11 / 10), toDouble (11 / 100), toDouble (121 / 100))] ∧
    toDouble (11 / 10) = .fin (2476979795053773 / 2251799813685248) ∧
    toDouble (11 / 100) = .fin (7926335344172073 / 72057594037927936) ∧
    toDouble (121 / 100) = .fin (1362338887279575 / 1125899906842624) ∧
    JSNum.add (toDouble (11 / 10)) (toDouble (11 / 100))
      = .fin (5449355549118301 / 4503599627370496) ∧
    JSNum.add (toDouble (11 / 10)) (toDouble (11 / 100)) ≠ toDouble (121 / 100) ∧
    (1362338887279575 / 1125899906842624 : ℚ)
      ≠ 2476979795053773 / 2251799813685248 + 7926335344172073 / 72057594037927936 := by
  decide!

/-- C2 (amended).  For item objects with finite numeric fields and an optional
charges object both `computeTotals` routines return, and for every computed
line whose taxable and gstAmount are finite and at most `8 * 10^12` in
magnitude, each of the two is the double nearest a whole number of hundredths
and lineTotal is the double nearest the sum of those two numbers of
hundredths: the line total is the exact decimal sum, held as a double. -/
theorem lineTotal_sum_in_cents (H : Host) (items : List JSVal) (charges : JSVal)
    (hi : ∀ v ∈ items, finiteItem v = true) (hc : chargesOk charges = true) :
    (∃ t, Receipt.computeTotals H items charges = some t ∧
      t.computedItems.map (fun c => c.item) = items ∧
      ∀ c ∈ t.computedItems, ∀ a b : ℚ, c.taxable = .fin a → c.gstAmount = .fin b →
        |a| ≤ 8 * 10 ^ 12 → |b| ≤ 8 * 10 ^ 12 →
        c.taxable = toDouble ((cents c.taxable : ℚ) / 100) ∧
        c.gstAmount = toDouble ((cents c.gstAmount : ℚ) / 100) ∧
        c.lineTotal = toDouble (((cents c.taxable + cents c.gstAmount : ℤ) : ℚ) / 100)) ∧
    (∃ t, Invoice.computeTotals H items charges = some t ∧
      t.computedItems.map (fun c => c.item) = items ∧
      ∀ c ∈ t.computedItems, ∀ a b : ℚ, c.taxable = .fin a → c.gstAmount = .fin b →
        |a| ≤ 8 * 10 ^ 12 → |b| ≤ 8 * 10 ^ 12 →
        c.taxable = toDouble ((cents c.taxable : ℚ) / 100) ∧
        c.gstAmount = toDouble ((cents c.gstAmount : ℚ) / 100) ∧
        c.lineTotal = toDouble (((cents c.taxable + cents c.gstAmount : ℤ) : ℚ) / 100)) := by
  constructor
  · obtain ⟨ys, hys, hall⟩ := mapIdxOpt_forall₂ (fun _ item => Receipt.computeItem H item)
      (fun v c => c.item = v ∧ ∀ a b : ℚ, c.taxable = .fin a → c.gstAmount = .fin b →
        |a| ≤ 8 * 10 ^ 12 → |b| ≤ 8 * 10 ^ 12 →
        c.taxable = toDouble ((cents c.taxable : ℚ) / 100) ∧
        c.gstAmount = toDouble ((cents c.gstAmount : ℚ) / 100) ∧
        c.lineTotal = toDouble (((cents c.taxable + cents c.gstAmount : ℤ) : ℚ) / 100)) items 0
      (fun _ x hx => ⟨_, receipt_computeItem_eq H x (hi x hx), rfl,
        fun a b => specLine_cents (lineItemOf x) a b⟩)
    have m0 := map_eq_of_forall₂ _ (fun v => v) (fun c : Receipt.ComputedItem => c.item)
      (fun _ _ h => h.1) _ _ hall
    refine ⟨_, by simp only [Receipt.computeTotals, hys,
      shippingOf_eq H charges hc]; rfl, by simpa using m0, ?_⟩
    exact forall_of_forall₂ _ _ (fun _ _ h => h.2) _ _ hall
  · obtain ⟨ys, hys, hall⟩ := mapIdxOpt_forall₂ (Invoice.computeItem H)
      (fun v c => c.item = v ∧ ∀ a b : ℚ, c.taxable = .fin a → c.gstAmount = .fin b →
        |a| ≤ 8 * 10 ^ 12 → |b| ≤ 8 * 10 ^ 12 →
        c.taxable = toDouble ((cents c.taxable : ℚ) / 100) ∧
        c.gstAmount = toDouble ((cents c.gstAmount : ℚ) / 100) ∧
        c.lineTotal = toDouble (((cents c.taxable + cents c.gstAmount : ℤ) : ℚ) / 100)) items 0
      (fun j x hx => by
        obtain ⟨c, h1, h2, _, h4, h5, h6⟩ := invoice_computeItem_eq H j x (hi x hx)
        refine ⟨c, h1, h2, fun a b => ?_⟩
        rw [h4, h5, h6]
        exact specLine_cents (lineItemOf x) a b)
    have m0 := map_eq_of_forall₂ _ (fun v => v) (fun c : Invoice.ComputedItem => c.item)
      (fun _ _ h => h.1) _ _ hall
    refine ⟨_, by simp only [Invoice.computeTotals, hys,
      shippingOf_eq H charges hc]; rfl, by simpa using m0, ?_⟩
    exact forall_of_forall₂ _ _ (fun _ _ h => h.2) _ _ hall

/-- C2 (witness): the amended statement at the item of the counterexample,
`{qty: 1, rate: 1.1, discountPercent: 0, gstPercent: 10}`, whose line total
`1.21` is the double nearest `(110 + 11) / 100`. -/
theorem lineTotal_sum_in_cents_witness :
    (∀ v ∈ [mkItem "x" (.fin 1) (toDouble (11 / 10)) (.fin 0) (.fin 10)],
      finiteItem v = true) ∧
    chargesOk .undefined = true ∧
    (∃ t, Receipt.computeTotals Host.numeric
        [mkItem "x" (.fin 1) (toDouble (11 / 10)) (.fin 0) (.fin 10)] .undefined = some t ∧
      t.computedItems.map (fun c => c.item)
        = [mkItem "x" (.fin 1) (toDouble (11 / 10)) (.fin 0) (.fin 10)] ∧
      ∀ c ∈ t.computedItems, ∀ a b : ℚ, c.taxable = .fin a → c.gstAmount = .fin b →
        |a| ≤ 8 * 10 ^ 12 → |b| ≤ 8 * 10 ^ 12 →
        c.taxable = toDouble ((cents c.taxable : ℚ) / 100) ∧
        c.gstAmount = toDouble ((cents c.gstAmount : ℚ) / 100) ∧
        c.lineTotal = toDouble (((cents c.taxable + cents c.gstAmount : ℤ) : ℚ) / 100)) ∧
    cents (toDouble (11 / 10)) = 110 ∧ cents (toDouble (11 / 100)) = 11 ∧
    toDouble (((110 + 11 : ℤ) : ℚ) / 100) = toDouble (121 / 100) :=
  ⟨by decide!, by decide,
    (lineTotal_sum_in_cents Host.numeric
      [mkItem "x" (.fin 1) (toDouble (11 / 10)) (.fin 0) (.fin 10)] .undefined
      (by decide!) (by decide)).1,
    by decide!, by decide!, by decide!⟩

/-! ## `round2` against the exact nudged value -/

/-- A nonzero value in the normal range is moved by rounding to binary64 by at
most the fraction `2 ^ (-53)` of its magnitude. -/
theorem toDouble_rel_err (q : ℚ) (h1 : (2 : ℚ) ^ (-1022 : ℤ) ≤ |q|)
    (h2 : |q| < (2 : ℚ) ^ (1023 : ℤ)) :
    ∃ r : ℚ, toDouble q = .fin r ∧ |r - q| ≤ |q| / 2 ^ 53 := by
  have two : (2 : ℚ) ≠ 0 := by norm_num
  have h0 : q ≠ 0 := by
    rintro rfl
    have : (0 : ℚ) < 2 ^ (-1022 : ℤ) := by positivity
    simp at h1
    linarith
  obtain ⟨b1, b2⟩ := binade_spec q h0
  have hb1 : -1021 ≤ binade q + 1 := by
    have := lt_of_le_of_lt h1 b2
    have := (zpow_lt_zpow_iff_right₀ (by norm_num : (1 : ℚ) < 2)).mp this
    omega
  have hb2 : binade q < 1023 := by
    have := lt_of_le_of_lt b1 h2
    exact (zpow_lt_zpow_iff_right₀ (by norm_num : (1 : ℚ) < 2)).mp this
  obtain ⟨r, hr, er⟩ := toDouble_err q (binade q + 1) hb1 (by omega) b2
  refine ⟨r, hr, le_trans er ?_⟩
  have e : (2 : ℚ) ^ (binade q + 1 - 54) = 2 ^ binade q / 2 ^ 53 := by
    rw [show binade q + 1 - 54 = binade q - 53 by ring, zpow_sub₀ two]
    norm_num
  rw [e]
  exact div_le_div_of_nonneg_right b1 (by positivity)

/-- Rounding to binary64 is monotone against the half-integers: below `2 ^ 52`
a value that is at least `a / 2` is rounded to a double that is at least
`a / 2`. -/
theorem toDouble_ge_half_int (q r : ℚ) (a : ℤ) (hq : |q| < 2 ^ 52)
    (h : toDouble q = .fin r) (ha : (a : ℚ) / 2 ≤ q) : (a : ℚ) / 2 ≤ r := by
  have two : (2 : ℚ) ≠ 0 := by norm_num
  by_cases h0 : q = 0
  · subst h0
    rw [toDouble_zero] at h
    rw [← JSNum.fin.inj h]; exact ha
  obtain ⟨b1, b2⟩ := binade_spec q h0
  have hb : binade q < 52 := by
    have := lt_of_le_of_lt b1 hq
    rw [show (2 : ℚ) ^ 52 = 2 ^ (52 : ℤ) by norm_num] at this
    exact (zpow_lt_zpow_iff_right₀ (by norm_num : (1 : ℚ) < 2)).mp this
  have hu : ulpExp q ≤ -1 := by
    unfold ulpExp; apply max_le <;> omega
  obtain ⟨j, hj⟩ : ∃ j : ℕ, ulpExp q = -((j : ℤ) + 1) := by
    refine ⟨(-ulpExp q - 1).toNat, ?_⟩
    have := Int.toNat_of_nonneg (show 0 ≤ -ulpExp q - 1 by omega)
    omega
  have hp : (2 : ℚ) ^ ulpExp q = 1 / (2 * 2 ^ j) := by
    rw [hj, zpow_neg, ← Nat.cast_succ, zpow_natCast, Nat.succ_eq_add_one, pow_succ]
    field_simp
    ring
  have hpe : (0 : ℚ) < 2 ^ ulpExp q := by positivity
  have hr : r = (roundHalfEven (q / 2 ^ ulpExp q) : ℚ) * 2 ^ ulpExp q := by
    unfold toDouble at h
    simp only [h0, if_false, pow2_eq] at h
    split_ifs at h
    exact (JSNum.fin.inj h).symm
  have ha' : (((a * 2 ^ j : ℤ)) : ℚ) ≤ q / 2 ^ ulpExp q := by
    rw [le_div_iff₀ hpe, hp]
    push_cast
    have e : (a : ℚ) * 2 ^ j * (1 / (2 * 2 ^ j)) = (a : ℚ) / 2 := by
      field_simp
      ring
    rw [e]
    exact ha
  have hc := le_roundHalfEven_of_le _ _ ha'
  have hc' : (((a * 2 ^ j : ℤ)) : ℚ) ≤ (roundHalfEven (q / 2 ^ ulpExp q) : ℚ) := by
    exact_mod_cast hc
  have := mul_le_mul_of_nonneg_right hc' hpe.le
  rw [hr]
  refine le_trans (le_of_eq ?_) this
  rw [hp]; push_cast; field_simp; ring

/-- A value that stays closer to `t` than `t` is to its nearest tie rounds to
the same integer as `t`. -/
theorem halfUp_eq_of_clear (t r s : ℚ) (hr : |r - t| ≤ s) (hs : s < tieDistance t) :
    halfUp r = halfUp t := by
  have f1 := Int.floor_le t
  have f2 := Int.lt_floor_add_one t
  rw [abs_le] at hr
  obtain ⟨r1, r2⟩ := hr
  unfold tieDistance Int.fract at hs
  unfold halfUp
  rcases lt_or_le (t - ⌊t⌋) (1 / 2) with hf | hf
  · rw [abs_of_neg (by linarith)] at hs
    have e1 : ⌊t + 1 / 2⌋ = ⌊t⌋ := by
      rw [Int.floor_eq_iff]; constructor <;> linarith
    rw [e1, Int.floor_eq_iff]
    constructor <;> linarith
  · rw [abs_of_nonneg (by linarith)] at hs
    have e1 : ⌊t + 1 / 2⌋ = ⌊t⌋ + 1 := by
      rw [Int.floor_eq_iff]; push_cast; constructor <;> linarith
    rw [e1, Int.floor_eq_iff]
    push_cast
    constructor <;> linarith

/-- At tie distance `0` the value is a half-integer. -/
theorem half_int_of_tieDistance_zero (t : ℚ) (h : tieDistance t = 0) :
    t = ((2 * ⌊t⌋ + 1 : ℤ) : ℚ) / 2 := by
  unfold tieDistance Int.fract at h
  have := abs_eq_zero.mp h
  push_cast
  linarith

/-- The result of `round2` from the computed hundredfold `Y` of the nudged
value: the double nearest `halfUp Y / 100`. -/
theorem round2_of_hundredfold (x Y : ℚ)
    (hY : JSNum.mul (JSNum.add (.fin x) EPSILON) (.fin 100) = .fin Y) :
    round2 (.fin x) = toDouble ((halfUp Y : ℚ) / 100) := by
  unfold round2 halfUp
  rw [hY]
  simp only [JSNum.round, JSNum.div]
  norm_num

/-- Away from a negative tie, a tie going toward `+∞` and a tie going away from
zero round alike. -/
theorem halfUp_eq_halfAway (Y : ℚ) (h : 0 ≤ Y ∨ tieDistance Y ≠ 0) :
    halfUp Y = halfAwayFromZero Y := by
  unfold halfAwayFromZero halfUp
  rcases lt_trichotomy Y 0 with hneg | hzero | hpos
  · have hnt : tieDistance Y ≠ 0 := by
      rcases h with h | h
      · exact absurd hneg (not_lt.mpr h)
      · exact h
    rw [sign_neg hneg, abs_of_neg hneg]
    have f1 := Int.floor_le Y
    have f2 := Int.lt_floor_add_one Y
    have g1 := Int.floor_le (-Y + 1 / 2)
    have g2 := Int.lt_floor_add_one (-Y + 1 / 2)
    have hne : Y + 1 / 2 ≠ ((1 - ⌊-Y + 1 / 2⌋ : ℤ) : ℚ) := by
      intro e
      apply hnt
      unfold tieDistance Int.fract
      rw [abs_eq_zero]
      have e2 : ⌊Y⌋ = -⌊-Y + 1 / 2⌋ := by
        rw [Int.floor_eq_iff]
        push_cast at e ⊢
        constructor <;> linarith
      rw [e2]
      push_cast at e ⊢
      linarith
    have : ⌊Y + 1 / 2⌋ = -⌊-Y + 1 / 2⌋ := by
      rw [Int.floor_eq_iff]
      push_cast at hne ⊢
      constructor
      · linarith
      · rcases lt_or_gt_of_ne hne with h1 | h1
        · linarith
        · linarith
    rw [this]; simp
  · subst hzero
    norm_num
  · rw [sign_pos hpos, abs_of_pos hpos]; simp

/-- At a negative tie, the tie going toward `+∞` ends one above the tie going
away from zero. -/
theorem halfUp_eq_halfAway_add_one (Y : ℚ) (hneg : Y < 0) (ht : tieDistance Y = 0) :
    halfUp Y = halfAwayFromZero Y + 1 := by
  have hY := half_int_of_tieDistance_zero Y ht
  unfold halfAwayFromZero halfUp
  rw [sign_neg hneg, abs_of_neg hneg]
  have e1 : ⌊Y + 1 / 2⌋ = ⌊Y⌋ + 1 := by
    have : Y + 1 / 2 = ((⌊Y⌋ + 1 : ℤ) : ℚ) := by push_cast at hY ⊢; linarith
    rw [this]; exact Int.floor_intCast _
  have e2 : ⌊-Y + 1 / 2⌋ = -⌊Y⌋ := by
    have : -Y + 1 / 2 = ((-⌊Y⌋ : ℤ) : ℚ) := by push_cast at hY ⊢; linarith
    rw [this]; exact Int.floor_intCast _
  rw [e1, e2]; simp

/-- The value of the claimed formula for `round2` from the nudged hundredfold. -/
theorem round2HalfAway_eq (x : ℚ) :
    round2HalfAway x = (halfAwayFromZero (nudgedHundredfold x) : ℚ) / 100 := by
  unfold round2HalfAway halfAwayFromZero nudgedHundredfold
  simp only
  rw [abs_mul, abs_of_pos (by norm_num : (0 : ℚ) < 100)]
  have : SignType.sign ((x + 1 / 2 ^ 52) * 100) = SignType.sign (x + 1 / 2 ^ 52) := by
    rw [sign_mul, sign_pos (by norm_num : (0 : ℚ) < 100), mul_one]
  rw [this]
  push_cast
  ring

/-- The hundredfold of the nudged value as `round2` computes it, with its two
roundings, against the exact one: it is finite and off by at most the
fraction `2 ^ (-52) + 2 ^ (-106)` of the magnitude. -/
theorem computed_hundredfold (x : ℚ) (htub : |nudgedHundredfold x| < 2 ^ 52)
    (hbig : 1 / 4 < |nudgedHundredfold x|) :
    ∃ Y : ℚ, JSNum.mul (JSNum.add (.fin x) EPSILON) (.fin 100) = .fin Y ∧
      |Y - nudgedHundredfold x| ≤
        |nudgedHundredfold x| / 2 ^ 52 + |nudgedHundredfold x| / 2 ^ 106 := by
  have eps : pow2 (-52) = 1 / 2 ^ 52 := by rw [pow2_eq]; norm_num
  have lo : (2 : ℚ) ^ (-1022 : ℤ) ≤ 1 / 2 ^ 10 := by
    rw [show (1 : ℚ) / 2 ^ 10 = 2 ^ (-10 : ℤ) by norm_num]
    exact zpow_le_zpow_right₀ (by norm_num) (by norm_num)
  have hi : (2 : ℚ) ^ 52 ≤ 2 ^ (1023 : ℤ) := by
    rw [show (2 : ℚ) ^ 52 = 2 ^ (52 : ℤ) by norm_num]
    exact zpow_le_zpow_right₀ (by norm_num) (by norm_num)
  have ht : |nudgedHundredfold x| = |x + 1 / 2 ^ 52| * 100 := by
    unfold nudgedHundredfold
    rw [abs_mul, abs_of_pos (by norm_num : (0 : ℚ) < 100)]
  have hyub : |x + 1 / 2 ^ 52| * 100 < 2 ^ 52 := by
    rw [ht] at htub; exact htub
  have hylb : 1 / 400 < |x + 1 / 2 ^ 52| := by
    rw [ht] at hbig; linarith
  unfold EPSILON
  simp only [JSNum.add, eps]
  obtain ⟨y1, hy1, e1⟩ := toDouble_rel_err (x + 1 / 2 ^ 52)
    (by norm_num at lo ⊢; linarith)
    (by norm_num at hyub hi ⊢; linarith)
  rw [hy1]
  simp only [JSNum.mul]
  have d1 : |y1 * 100 - (x + 1 / 2 ^ 52) * 100| = |y1 - (x + 1 / 2 ^ 52)| * 100 := by
    rw [← sub_mul, abs_mul, abs_of_pos (by norm_num : (0 : ℚ) < 100)]
  have u1 : |y1 * 100| ≤ |(x + 1 / 2 ^ 52) * 100| + |y1 * 100 - (x + 1 / 2 ^ 52) * 100| := by
    have := abs_add ((x + 1 / 2 ^ 52) * 100) (y1 * 100 - (x + 1 / 2 ^ 52) * 100)
    simpa using this
  have l1 : |(x + 1 / 2 ^ 52) * 100| ≤ |y1 * 100| + |y1 * 100 - (x + 1 / 2 ^ 52) * 100| := by
    have := abs_sub_abs_le_abs_sub ((x + 1 / 2 ^ 52) * 100) (y1 * 100)
    rw [abs_sub_comm ((x + 1 / 2 ^ 52) * 100)] at this
    linarith
  have t1 : |(x + 1 / 2 ^ 52) * 100| = |x + 1 / 2 ^ 52| * 100 := by
    rw [abs_mul, abs_of_pos (by norm_num : (0 : ℚ) < 100)]
  have e1' : |y1 - (x + 1 / 2 ^ 52)| * 2 ^ 53 ≤ |x + 1 / 2 ^ 52| := by
    rw [le_div_iff₀ (by positivity)] at e1; exact e1
  obtain ⟨Y, hY, eY⟩ := toDouble_rel_err (y1 * 100)
    (by norm_num at lo e1' hylb d1 l1 t1 ⊢; linarith)
    (by norm_num at hyub hi e1' d1 u1 t1 ⊢; linarith)
  refine ⟨Y, hY, ?_⟩
  have tri : |Y - nudgedHundredfold x| ≤
      |Y - y1 * 100| + |y1 * 100 - (x + 1 / 2 ^ 52) * 100| := by
    unfold nudgedHundredfold
    have := abs_add (Y - y1 * 100) (y1 * 100 - (x + 1 / 2 ^ 52) * 100)
    simpa using this
  have eY' : |Y - y1 * 100| * 2 ^ 53 ≤ |y1 * 100| := by
    rw [le_div_iff₀ (by positivity)] at eY; exact eY
  rw [ht]
  norm_num at e1' eY' d1 u1 t1 tri ⊢
  linarith

/-- Where the sum `x + ε` is itself a double, the hundredfold that `round2`
computes is the exact one rounded once: it is off by at most the fraction
`2 ^ (-53)` of the magnitude and does not fall below a half-integer that the
exact value reaches. -/
theorem computed_hundredfold_exact_sum (x : ℚ)
    (hd : (JSNum.fin (x + 1 / 2 ^ 52)).isDouble = true)
    (htub : |nudgedHundredfold x| < 2 ^ 52) (hbig : 1 / 4 < |nudgedHundredfold x|) :
    ∃ Y : ℚ, JSNum.mul (JSNum.add (.fin x) EPSILON) (.fin 100) = .fin Y ∧
      |Y - nudgedHundredfold x| ≤ |nudgedHundredfold x| / 2 ^ 53 ∧
      ∀ a : ℤ, (a : ℚ) / 2 ≤ nudgedHundredfold x → (a : ℚ) / 2 ≤ Y := by
  have eps : pow2 (-52) = 1 / 2 ^ 52 := by rw [pow2_eq]; norm_num
  have lo : (2 : ℚ) ^ (-1022 : ℤ) ≤ 1 / 2 ^ 10 := by
    rw [show (1 : ℚ) / 2 ^ 10 = 2 ^ (-10 : ℤ) by norm_num]
    exact zpow_le_zpow_right₀ (by norm_num) (by norm_num)
  have hi : (2 : ℚ) ^ 52 ≤ 2 ^ (1023 : ℤ) := by
    rw [show (2 : ℚ) ^ 52 = 2 ^ (52 : ℤ) by norm_num]
    exact zpow_le_zpow_right₀ (by norm_num) (by norm_num)
  have hy : toDouble (x + 1 / 2 ^ 52) = .fin (x + 1 / 2 ^ 52) := by
    simpa [JSNum.isDouble] using hd
  unfold EPSILON
  simp only [JSNum.add, eps, hy, JSNum.mul]
  unfold nudgedHundredfold at htub hbig ⊢
  obtain ⟨Y, hY, eY⟩ := toDouble_rel_err ((x + 1 / 2 ^ 52) * 100)
    (by norm_num at lo ⊢; linarith) (by norm_num at hi ⊢; linarith)
  exact ⟨Y, hY, eY, fun a ha => toDouble_ge_half_int _ Y a htub hY ha⟩

/-- A nudged hundredfold of magnitude at most `1/4` is computed as a value
below `1/2` in magnitude: both round to `0`. -/
theorem computed_hundredfold_small (x : ℚ) (hsmall : |nudgedHundredfold x| ≤ 1 / 4) :
    ∃ Y : ℚ, JSNum.mul (JSNum.add (.fin x) EPSILON) (.fin 100) = .fin Y ∧
      halfUp Y = halfUp (nudgedHundredfold x) := by
  have eps : pow2 (-52) = 1 / 2 ^ 52 := by rw [pow2_eq]; norm_num
  have ht : |nudgedHundredfold x| = |x + 1 / 2 ^ 52| * 100 := by
    unfold nudgedHundredfold
    rw [abs_mul, abs_of_pos (by norm_num : (0 : ℚ) < 100)]
  have hy : |x + 1 / 2 ^ 52| ≤ 1 / 400 := by rw [ht] at hsmall; linarith
  obtain ⟨y1, hy1, e1⟩ := toDouble_err (x + 1 / 2 ^ 52) (-8) (by norm_num) (by norm_num) (by
    norm_num at hy ⊢; linarith)
  have e1' : |y1 - (x + 1 / 2 ^ 52)| ≤ 1 / 2 ^ 62 := by
    norm_num at e1 ⊢; exact e1
  rw [abs_le] at e1' hy
  obtain ⟨Y, hY, e2⟩ := toDouble_err (y1 * 100) (-1) (by norm_num) (by norm_num) (by
    rw [abs_lt]; norm_num at e1' hy ⊢; constructor <;> linarith)
  have e2' : |Y - y1 * 100| ≤ 1 / 2 ^ 55 := by
    norm_num at e2 ⊢; exact e2
  rw [abs_le] at e2'
  refine ⟨Y, ?_, ?_⟩
  · unfold EPSILON
    simp only [JSNum.add, eps, hy1, JSNum.mul, hY]
  · have a : halfUp Y = 0 := by
      unfold halfUp
      rw [Int.floor_eq_iff]
      norm_num at e1' e2' hy ⊢
      constructor <;> linarith
    have b : halfUp (nudgedHundredfold x) = 0 := by
      unfold halfUp nudgedHundredfold
      rw [Int.floor_eq_iff]
      norm_num at hy ⊢
      constructor <;> linarith
    rw [a, b]

/-- The nearest tie is never farther than one half. -/
theorem tieDistance_le_half (t : ℚ) : tieDistance t ≤ 1 / 2 := by
  have f1 := Int.floor_le t
  have f2 := Int.lt_floor_add_one t
  unfold tieDistance Int.fract
  rw [abs_le]
  constructor <;> linarith

/-- C3 (amended).  Write `t = (x + ε) * 100` for the exact hundredfold of the
nudged value.  For every finite `x` such that either the sum `x + ε` is itself
a double, `|t| < 2^52` and `t` lies more than `|t| / 2^53` below the tie above
it, or `t` lies farther than `|t| / 2^52 + |t| / 2^106` from every tie,
`round2 x` is the double nearest `N / 100`, where `N = floor (t + 1/2)` is
`x + ε` in hundredths rounded to the nearest integer with a tie going toward
`+∞`.  This is the value of the claimed formula,
`sign(y) * floor(|y| * 100 + 1/2) / 100`, except at a negative tie, where it is
one hundredth above it. -/
theorem round2_nudged_half_up (x : ℚ)
    (hclear :
      ((JSNum.fin (x + 1 / 2 ^ 52)).isDouble = true ∧ |nudgedHundredfold x| < 2 ^ 52 ∧
        |nudgedHundredfold x| / 2 ^ 53 <
          (halfUp (nudgedHundredfold x) : ℚ) + 1 / 2 - nudgedHundredfold x) ∨
      |nudgedHundredfold x| / 2 ^ 52 + |nudgedHundredfold x| / 2 ^ 106 <
        tieDistance (nudgedHundredfold x)) :
    round2 (.fin x) = toDouble ((halfUp (nudgedHundredfold x) : ℚ) / 100) ∧
    ((0 ≤ nudgedHundredfold x ∨ tieDistance (nudgedHundredfold x) ≠ 0) →
      round2 (.fin x) = toDouble (round2HalfAway x)) ∧
    ((nudgedHundredfold x < 0 ∧ tieDistance (nudgedHundredfold x) = 0) →
      round2 (.fin x) = toDouble (round2HalfAway x + 1 / 100)) := by
  have main : round2 (.fin x) = toDouble ((halfUp (nudgedHundredfold x) : ℚ) / 100) := by
    rcases le_or_lt |nudgedHundredfold x| (1 / 4) with hsmall | hbig
    · obtain ⟨Y, hY, e⟩ := computed_hundredfold_small x hsmall
      rw [round2_of_hundredfold x Y hY, e]
    · rcases hclear with ⟨hd, htub, hup⟩ | hc
      · obtain ⟨Y, hY, eY, mono⟩ := computed_hundredfold_exact_sum x hd htub hbig
        have e : halfUp Y = halfUp (nudgedHundredfold x) := by
          have f1 := Int.floor_le (nudgedHundredfold x + 1 / 2)
          have lower := mono (2 * halfUp (nudgedHundredfold x) - 1) (by
            unfold halfUp; push_cast; linarith)
          rw [abs_le] at eY
          unfold halfUp at hup lower ⊢
          rw [Int.floor_eq_iff]
          push_cast at lower
          constructor <;> linarith
        rw [round2_of_hundredfold x Y hY, e]
      · have htub : |nudgedHundredfold x| < 2 ^ 52 := by
          have h1 := tieDistance_le_half (nudgedHundredfold x)
          have h3 : 0 ≤ |nudgedHundredfold x| / 2 ^ 106 := by positivity
          have : |nudgedHundredfold x| / 2 ^ 52 < 1 / 2 := by linarith
          rw [div_lt_iff₀ (by positivity)] at this
          norm_num at this ⊢
          linarith
        obtain ⟨Y, hY, eY⟩ := computed_hundredfold x htub hbig
        rw [round2_of_hundredfold x Y hY, halfUp_eq_of_clear _ Y _ eY hc]
  refine ⟨main, ?_, ?_⟩
  · intro h
    rw [main, halfUp_eq_halfAway _ h, round2HalfAway_eq]
  · rintro ⟨hneg, htie⟩
    rw [main, halfUp_eq_halfAway_add_one _ hneg htie, round2HalfAway_eq]
    congr 1
    push_cast
    ring

/-- C3 (witness): the amended statement at the double `1.005`, which lies just
below the decimal `1.005` (its plain hundredfold rounds to `100`) and which the
nudge lifts over the tie `100.5`, so that `round2` returns `1.01`; and at the
negative tie of the counterexample. -/
theorem round2_nudged_half_up_witness :
    (toDouble (201 / 200) = .fin (1131529406376837 / 1125899906842624) ∧
      halfUp ((1131529406376837 / 1125899906842624 : ℚ) * 100) = 100 ∧
      halfUp (nudgedHundredfold (1131529406376837 / 1125899906842624)) = 101 ∧
      round2HalfAway (1131529406376837 / 1125899906842624) = 101 / 100 ∧
      round2 (.fin (1131529406376837 / 1125899906842624)) =
        toDouble (round2HalfAway (1131529406376837 / 1125899906842624))) ∧
    (tieDistance (nudgedHundredfold (-(1 / 8) - 1 / 2 ^ 52)) = 0 ∧
      round2 (.fin (-(1 / 8) - 1 / 2 ^ 52)) =
        toDouble (round2HalfAway (-(1 / 8) - 1 / 2 ^ 52) + 1 / 100)) :=
  ⟨⟨by decide!, by decide!, by decide!, by decide!,
      (round2_nudged_half_up (1131529406376837 / 1125899906842624)
        (Or.inl ⟨by decide!, by decide!, by decide!⟩)).2.1
        (Or.inl (by norm_num [nudgedHundredfold]))⟩,
    by decide!,
    (round2_nudged_half_up (-(1 / 8) - 1 / 2 ^ 52)
      (Or.inl ⟨by decide!, by decide!, by decide!⟩)).2.2
      ⟨by norm_num [nudgedHundredfold], by decide!⟩⟩

/-- Where the sum `x + ε` is rounded the nudge can be lost: at the double
`2.135`, which lies just below the decimal `2.135`, the exact nudged
hundredfold is above the tie `213.5` and the claimed formula gives `2.14`, but
`2.135 + ε` rounds back to `2.135` and `round2` returns `2.13`.  The sum is no
double there and the nudged hundredfold is closer to the tie than the two
roundings can move it. -/
theorem round2_nudge_absorbed :
    toDouble (427 / 200) = .fin (1201898150554501 / 562949953421312) ∧
    (JSNum.fin (1201898150554501 / 562949953421312 + 1 / 2 ^ 52)).isDouble = false ∧
    JSNum.add (.fin (1201898150554501 / 562949953421312)) EPSILON =
      .fin (1201898150554501 / 562949953421312) ∧
    round2 (.fin (1201898150554501 / 562949953421312)) = toDouble (213 / 100) ∧
    round2HalfAway (1201898150554501 / 562949953421312) = 214 / 100 ∧
    tieDistance (nudgedHundredfold (1201898150554501 / 562949953421312)) <
      |nudgedHundredfold (1201898150554501 / 562949953421312)| / 2 ^ 52 +
        |nudgedHundredfold (1201898150554501 / 562949953421312)| / 2 ^ 106 := by
  decide!

/-! ## Lines with zero quantity or zero rate -/

/-- A finite double is below `2 ^ 1024` in magnitude. -/
theorem abs_lt_of_isDouble (q : ℚ) (h : (JSNum.fin q).isDouble = true) :
    |q| < (2 : ℚ) ^ (1024 : ℤ) := by
  simp only [JSNum.isDouble, decide_eq_true_eq] at h
  by_cases h0 : q = 0
  · subst h0; simp only [abs_zero]; positivity
  · unfold toDouble at h
    simp only [h0, if_false, pow2_eq] at h
    split_ifs at h with hbig
    have hr := JSNum.fin.inj h
    rw [hr] at hbig
    exact not_le.mp hbig

/-- A hundredth of a finite double is finite. -/
theorem div100_finite (d : ℚ) (hd : (JSNum.fin d).isDouble = true) :
    ∃ z : ℚ, JSNum.div (.fin d) (.fin 100) = .fin z ∧ |z| < (2 : ℚ) ^ (1019 : ℤ) := by
  have two : (2 : ℚ) ≠ 0 := by norm_num
  have hlt := abs_lt_of_isDouble d hd
  have e1 : (2 : ℚ) ^ (1024 : ℤ) = 64 * 2 ^ (1018 : ℤ) := by
    rw [show (1024 : ℤ) = 1018 + 6 by norm_num, zpow_add₀ two]; norm_num
  have e2 : (2 : ℚ) ^ (1019 : ℤ) = 2 * 2 ^ (1018 : ℤ) := by
    rw [show (1019 : ℤ) = 1018 + 1 by norm_num, zpow_add₀ two]; norm_num
  have e3 : (2 : ℚ) ^ (1018 - 54 : ℤ) < 2 ^ (1018 : ℤ) :=
    zpow_lt_zpow_right₀ (by norm_num) (by norm_num)
  have hp : (0 : ℚ) < 2 ^ (1018 : ℤ) := by positivity
  obtain ⟨z, hz, ez⟩ := toDouble_err (d / 100) 1018 (by norm_num) (by norm_num) (by
    rw [abs_div, abs_of_pos (by norm_num : (0 : ℚ) < 100), div_lt_iff₀ (by norm_num)]
    linarith)
  refine ⟨z, by simp [JSNum.div, hz], ?_⟩
  have h1 : |z| ≤ |d / 100| + |z - d / 100| := by
    have := abs_add (d / 100) (z - d / 100)
    simpa using this
  have h2 : |d / 100| < 2 ^ (1018 : ℤ) := by
    rw [abs_div, abs_of_pos (by norm_num : (0 : ℚ) < 100), div_lt_iff₀ (by norm_num)]
    linarith
  linarith

/-- The factor `1 - discountPercent / 100` of a finite double is finite. -/
theorem one_sub_div100_finite (d : ℚ) (hd : (JSNum.fin d).isDouble = true) :
    ∃ w : ℚ, JSNum.sub (.fin 1) (JSNum.div (.fin d) (.fin 100)) = .fin w := by
  have two : (2 : ℚ) ≠ 0 := by norm_num
  obtain ⟨z, hz, bz⟩ := div100_finite d hd
  have e2 : (2 : ℚ) ^ (1020 : ℤ) = 2 * 2 ^ (1019 : ℤ) := by
    rw [show (1020 : ℤ) = 1019 + 1 by norm_num, zpow_add₀ two]; norm_num
  have hp : (1 : ℚ) ≤ 2 ^ (1019 : ℤ) := by
    have := zpow_le_zpow_right₀ (by norm_num : (1 : ℚ) ≤ 2) (by norm_num : (0 : ℤ) ≤ 1019)
    simpa using this
  obtain ⟨w, hw, _⟩ := toDouble_err (1 + -z) 1020 (by norm_num) (by norm_num) (by
    have := abs_add 1 (-z)
    rw [abs_neg, abs_one] at this
    linarith)
  exact ⟨w, by simp [JSNum.sub, JSNum.neg, JSNum.add, hz, hw]⟩

/-- The reference line of an item with zero quantity or zero rate, the
percentages being finite doubles, is zero throughout. -/
theorem specLine_zero (a b d g : ℚ) (hz : a = 0 ∨ b = 0)
    (hd : (JSNum.fin d).isDouble = true) (hg : (JSNum.fin g).isDouble = true) :
    specLine { qty := .fin a, rate := .fin b, discountPercent := .fin d, gstPercent := .fin g }
      = { taxable := .fin 0, gstAmount := .fin 0, lineTotal := .fin 0 } := by
  obtain ⟨w, hw⟩ := one_sub_div100_finite d hd
  obtain ⟨z, hz', _⟩ := div100_finite g hg
  have hab : a * b = 0 := by rcases hz with h | h <;> simp [h]
  simp only [specLine, hw, hz']
  simp [JSNum.mul, JSNum.add, hab, toDouble_zero, round2_zero]

/-- The reference line of an item object with finite double fields and zero
quantity or zero rate is zero throughout. -/
theorem specLine_lineItemOf_zero (v : JSVal) (hf : finiteItem v = true)
    (hd : doubleItem v = true)
    (hz : numField v "qty" = .fin 0 ∨ numField v "rate" = .fin 0) :
    specLine (lineItemOf v) = { taxable := .fin 0, gstAmount := .fin 0, lineTotal := .fin 0 } := by
  cases v with
  | obj fs =>
    simp only [finiteItem, doubleItem, Bool.and_eq_true] at hf hd
    obtain ⟨⟨⟨f1, f2⟩, f3⟩, f4⟩ := hf
    obtain ⟨⟨⟨_, _⟩, d3⟩, d4⟩ := hd
    unfold lineItemOf
    generalize numField (.obj fs) "qty" = a at f1 hz ⊢
    generalize numField (.obj fs) "rate" = b at f2 hz ⊢
    generalize numField (.obj fs) "discountPercent" = d at f3 d3 ⊢
    generalize numField (.obj fs) "gstPercent" = g at f4 d4 ⊢
    cases a <;> cases b <;> cases d <;> cases g <;>
      simp only [JSNum.isFinite, Bool.false_eq_true] at f1 f2 f3 f4
    apply specLine_zero _ _ _ _ _ d3 d4
    rcases hz with h | h
    · exact Or.inl (JSNum.fin.inj h)
    · exact Or.inr (JSNum.fin.inj h)
  | _ => simp [finiteItem] at hf

/-- C9.  For item objects with finite numeric fields (finite doubles) and an
optional charges object, both `computeTotals` routines return without throwing,
and every computed line whose item has `qty` 0 or `rate` 0 has taxable 0,
gstAmount 0 and lineTotal 0. -/
theorem zero_qty_or_rate_line_is_zero (H : Host) (items : List JSVal) (charges : JSVal)
    (hi : ∀ v ∈ items, finiteItem v = true ∧ doubleItem v = true)
    (hc : chargesOk charges = true) :
    (∃ t, Receipt.computeTotals H items charges = some t ∧
      t.computedItems.map (fun c => c.item) = items ∧
      ∀ c ∈ t.computedItems,
        numField c.item "qty" = .fin 0 ∨ numField c.item "rate" = .fin 0 →
        c.taxable = .fin 0 ∧ c.gstAmount = .fin 0 ∧ c.lineTotal = .fin 0) ∧
    (∃ t, Invoice.computeTotals H items charges = some t ∧
      t.computedItems.map (fun c => c.item) = items ∧
      ∀ c ∈ t.computedItems,
        numField c.item "qty" = .fin 0 ∨ numField c.item "rate" = .fin 0 →
        c.taxable = .fin 0 ∧ c.gstAmount = .fin 0 ∧ c.lineTotal = .fin 0) := by
  constructor
  · obtain ⟨ys, hys, hall⟩ := mapIdxOpt_forall₂ (fun _ item => Receipt.computeItem H item)
      (fun v c => c.item = v ∧ (numField c.item "qty" = .fin 0 ∨ numField c.item "rate" = .fin 0 →
        c.taxable = .fin 0 ∧ c.gstAmount = .fin 0 ∧ c.lineTotal = .fin 0)) items 0
      (fun _ x hx => ⟨_, receipt_computeItem_eq H x (hi x hx).1, rfl, fun hz => by
        simp only [specLine_lineItemOf_zero x (hi x hx).1 (hi x hx).2 hz, and_self]⟩)
    have m0 := map_eq_of_forall₂ _ (fun v => v) (fun c : Receipt.ComputedItem => c.item)
      (fun _ _ h => h.1) _ _ hall
    refine ⟨_, by simp only [Receipt.computeTotals, hys,
      shippingOf_eq H charges hc]; rfl, by simpa using m0, ?_⟩
    exact forall_of_forall₂ _ _ (fun _ _ h => h.2) _ _ hall
  · obtain ⟨ys, hys, hall⟩ := mapIdxOpt_forall₂ (Invoice.computeItem H)
      (fun v c => c.item = v ∧ (numField c.item "qty" = .fin 0 ∨ numField c.item "rate" = .fin 0 →
        c.taxable = .fin 0 ∧ c.gstAmount = .fin 0 ∧ c.lineTotal = .fin 0)) items 0
      (fun j x hx => by
        obtain ⟨c, h1, h2, _, h4, h5, h6⟩ := invoice_computeItem_eq H j x (hi x hx).1
        refine ⟨c, h1, h2, fun hz => ?_⟩
        rw [h2] at hz
        rw [h4, h5, h6, specLine_lineItemOf_zero x (hi x hx).1 (hi x hx).2 hz]
        exact ⟨rfl, rfl, rfl⟩)
    have m0 := map_eq_of_forall₂ _ (fun v => v) (fun c : Invoice.ComputedItem => c.item)
      (fun _ _ h => h.1) _ _ hall
    refine ⟨_, by simp only [Invoice.computeTotals, hys,
      shippingOf_eq H charges hc]; rfl, by simpa using m0, ?_⟩
    exact forall_of_forall₂ _ _ (fun _ _ h => h.2) _ _ hall

/-- C9 (witness): two items, one with `qty` 0 and one with `rate` 0, no charges. -/
theorem zero_qty_or_rate_line_is_zero_witness :
    (∀ v ∈ zeroLineItems, finiteItem v = true ∧ doubleItem v = true) ∧
    chargesOk .undefined = true ∧
    (∃ t, Receipt.computeTotals Host.numeric zeroLineItems .undefined = some t ∧
      t.computedItems.map (fun c => c.item) = zeroLineItems ∧
      ∀ c ∈ t.computedItems,
        numField c.item "qty" = .fin 0 ∨ numField c.item "rate" = .fin 0 →
        c.taxable = .fin 0 ∧ c.gstAmount = .fin 0 ∧ c.lineTotal = .fin 0) ∧
    (∃ t, Invoice.computeTotals Host.numeric zeroLineItems .undefined = some t ∧
      t.computedItems.map (fun c => c.item) = zeroLineItems ∧
      ∀ c ∈ t.computedItems,
        numField c.item "qty" = .fin 0 ∨ numField c.item "rate" = .fin 0 →
        c.taxable = .fin 0 ∧ c.gstAmount = .fin 0 ∧ c.lineTotal = .fin 0) :=
  ⟨by decide!, by decide,
    (zero_qty_or_rate_line_is_zero Host.numeric zeroLineItems .undefined
      (by decide!) (by decide)).1,
    (zero_qty_or_rate_line_is_zero Host.numeric zeroLineItems .undefined
      (by decide!) (by decide)).2⟩

/-! ## The receipt validators -/

/-- Rounding to binary64 never yields `NaN`. -/
theorem toDouble_ne_nan (q : ℚ) : toDouble q ≠ .nan := by
  unfold toDouble
  simp only
  split_ifs <;> simp

/-- Away from `NaN`, `x > y` is the negation of `x <= y`. -/
theorem gt_eq_not_le (x y : JSNum) (hx : x ≠ .nan) (hy : y ≠ .nan) :
    JSNum.gt x y = !JSNum.le x y := by
  cases x with
  | nan => exact absurd rfl hx
  | inf a =>
    cases y with
    | nan => exact absurd rfl hy
    | inf b => cases a <;> cases b <;> rfl
    | fin q => cases a <;> rfl
  | fin p =>
    cases y with
    | nan => exact absurd rfl hy
    | inf b => cases b <;> rfl
    | fin q =>
      simp only [JSNum.gt, JSNum.lt, JSNum.le]
      by_cases h : p ≤ q
      · simp [h, not_lt.mpr h]
      · simp [h, not_le.mp h]

/-- The double-arithmetic difference `|a - g|` of a number `a` other than `NaN`
and a finite `g` is not `NaN`. -/
theorem abs_sub_ne_nan (a : JSNum) (g : ℚ) (ha : a ≠ .nan) :
    JSNum.abs (JSNum.sub a (.fin g)) ≠ .nan := by
  cases a with
  | nan => exact absurd rfl ha
  | inf b => simp [JSNum.sub, JSNum.neg, JSNum.add, JSNum.abs]
  | fin p =>
    simp only [JSNum.sub, JSNum.neg, JSNum.add]
    cases h : toDouble (p + -g) with
    | nan => exact absurd h (toDouble_ne_nan _)
    | inf b => simp [JSNum.abs]
    | fin r => simp [JSNum.abs]

/-- A value defaulted by `|| ''` is truthy exactly when it is itself. -/
theorem truthy_or_empty (v : JSVal) : (JSVal.or v (.str "")).truthy = v.truthy := by
  unfold JSVal.or
  cases h : v.truthy
  · simp [JSVal.truthy]
  · simp [h]

/-- A property read on a value that is not nullish does not throw. -/
theorem get_eq_some_getOpt (v : JSVal) (k : String) (h : v.isNullish = false) :
    v.get k = some (v.getOpt k) := by
  cases v <;> simp [JSVal.isNullish] at h <;> rfl

/-- On a record that is not nullish the validator of the receipt generator
returns what the validator of `utils/validate.js` returns. -/
theorem receipt_validate_eq_validate (H : Host) (data g : JSVal)
    (h : data.isNullish = false) :
    Receipt.validateReceiptData H data g = some (Validate.validateReceiptData H data g) := by
  unfold Receipt.validateReceiptData Validate.validateReceiptData
  rw [get_eq_some_getOpt data "receipt" h]

/-- The error list of the validator, by cases on what it tests. -/
theorem validate_errors (H : Host) (data g : JSVal) :
    (Validate.validateReceiptData H data g).errors =
      (match g with
        | .num n =>
          if JSNum.gt (amountPaidOf H data) (.fin 0) then
            pushIf (JSNum.gt (JSNum.abs (JSNum.sub (amountPaidOf H data) n)) (toDouble (1 / 100)))
              "amountPaid does not match invoice grand total"
          else id
        | _ => id)
      (pushIf (JSNum.le (amountPaidOf H data) (.fin 0)) "amountPaid must be greater than 0"
        (pushIf (!(sourceInvoiceId data).truthy) "invoiceId is required"
          (pushIf (!((receiptOf data).getOpt "paymentMethod").truthy) "paymentMethod is required"
            (pushIf (!((receiptOf data).getOpt "receiptDate").truthy) "receiptDate is required"
              (pushIf (!((receiptOf data).getOpt "receiptId").truthy) "receiptId is required"
                []))))) := by
  unfold Validate.validateReceiptData amountPaidOf receiptOf sourceInvoiceId
  simp only [truthy_or_empty]
  cases g <;> first | rfl | (simp only []; split_ifs <;> rfl)

/-- The flag `ok` of the validator is the emptiness test of its error list. -/
theorem validate_ok (H : Host) (data g : JSVal) :
    (Validate.validateReceiptData H data g).ok
      = ((Validate.validateReceiptData H data g).errors.length == 0) := rfl

/-- C10.  For every input, `ok` is true exactly when the error list is empty:
for `validateInvoiceData` (whatever violations the compiled schema validator
records), for `validateReceiptData` of `utils/validate.js`, with any second
argument, and for `validateReceiptData` of the receipt generator, which returns
on every record that is not nullish. -/
theorem ok_iff_no_errors {ε : Type} (validate : JSVal → List ε) (H : Host)
    (data g : JSVal) :
    ((Validate.validateInvoiceData validate data).ok = true ↔
      (Validate.validateInvoiceData validate data).errors = []) ∧
    ((Validate.validateReceiptData H data g).ok = true ↔
      (Validate.validateReceiptData H data g).errors = []) ∧
    (∀ r, Receipt.validateReceiptData H data g = some r → (r.ok = true ↔ r.errors = [])) ∧
    (data.isNullish = false → ∃ r, Receipt.validateReceiptData H data g = some r) := by
  have hv : (Validate.validateReceiptData H data g).ok = true ↔
      (Validate.validateReceiptData H data g).errors = [] := by
    rw [validate_ok]; simp
  refine ⟨?_, hv, ?_, fun h => ⟨_, receipt_validate_eq_validate H data g h⟩⟩
  · unfold Validate.validateInvoiceData
    cases h : validate data <;> simp [h]
  · intro r hr
    by_cases hn : data.isNullish = false
    · rw [receipt_validate_eq_validate H data g hn] at hr
      cases hr
      exact hv
    · cases data <;> simp [JSVal.isNullish] at hn <;>
        simp [Receipt.validateReceiptData, JSVal.get] at hr

/-- A number greater than another is not `NaN`. -/
theorem ne_nan_of_gt (x y : JSNum) (h : JSNum.gt x y = true) : x ≠ .nan := by
  rintro rfl
  cases y <;> simp [JSNum.gt, JSNum.lt] at h

/-- C5 (the code at a failing input).  A receipt with its four required fields
present that pays `100.01` against the grand total `100`: the amount is
positive and the two amounts differ by exactly one hundredth, so the receipt
is within the tolerance of `0.01`; but the difference of the two doubles is
`0.010000000000005116`, above the double `0.01`, and both validators reject
the receipt with the mismatch message as the only error.  The same happens
for `20.01` against `20`. -/
theorem receipt_one_paisa_rejected :
    ((receiptOf (receiptRecord (some (.num (toDouble (10001 / 100)))))).getOpt
        "receiptId").truthy = true ∧
    ((receiptOf (receiptRecord (some (.num (toDouble (10001 / 100)))))).getOpt
        "receiptDate").truthy = true ∧
    ((receiptOf (receiptRecord (some (.num (toDouble (10001 / 100)))))).getOpt
        "paymentMethod").truthy = true ∧
    (sourceInvoiceId (receiptRecord (some (.num (toDouble (10001 / 100)))))).truthy = true ∧
    amountPaidOf Host.numeric (receiptRecord (some (.num (toDouble (10001 / 100)))))
      = toDouble (10001 / 100) ∧
    JSNum.gt (toDouble (10001 / 100)) (.fin 0) = true ∧
    |(10001 / 100 : ℚ) - 100| ≤ 1 / 100 ∧
    JSNum.abs (JSNum.sub (toDouble (10001 / 100)) (.fin 100))
      = .fin (703687441777 / 70368744177664) ∧
    toDouble (1 / 100) = .fin (5764607523034235 / 576460752303423488) ∧
    Validate.validateReceiptData Host.numeric
        (receiptRecord (some (.num (toDouble (10001 / 100))))) (.num (.fin 100))
      = { ok := false, errors := ["amountPaid does not match invoice grand total"] } ∧
    Receipt.validateReceiptData Host.numeric
        (receiptRecord (some (.num (toDouble (10001 / 100))))) (.num (.fin 100))
      = some { ok := false, errors := ["amountPaid does not match invoice grand total"] } ∧
    |(2001 / 100 : ℚ) - 20| ≤ 1 / 100 ∧
    Validate.validateReceiptData Host.numeric
        (receiptRecord (some (.num (toDouble (2001 / 100))))) (.num (.fin 20))
      = { ok := false, errors := ["amountPaid does not match invoice grand total"] } ∧
    Receipt.validateReceiptData Host.numeric
        (receiptRecord (some (.num (toDouble (2001 / 100))))) (.num (.fin 20))
      = some { ok := false, errors := ["amountPaid does not match invoice grand total"] } := by
  decide!

/-- C6 (counterexample).  A receipt with the four required fields and no
`amountPaid` (taken as `0`), checked against the grand total `1180`: the
difference exceeds `0.01`, yet the only error is the positive-amount message
and the mismatch message is not reported.  Both validators behave so. -/
theorem mismatch_not_reported_without_amount :
    amountPaidOf Host.numeric (receiptRecord none) = .fin 0 ∧
    JSNum.gt (JSNum.abs (JSNum.sub (.fin 0) (.fin 1180))) (toDouble (1 / 100)) = true ∧
    Validate.validateReceiptData Host.numeric (receiptRecord none) (.num (.fin 1180))
      = { ok := false, errors := ["amountPaid must be greater than 0"] } ∧
    Receipt.validateReceiptData Host.numeric (receiptRecord none) (.num (.fin 1180))
      = some { ok := false, errors := ["amountPaid must be greater than 0"] } ∧
    "amountPaid does not match invoice grand total" ∉
      (Validate.validateReceiptData Host.numeric (receiptRecord none) (.num (.fin 1180))).errors := by
  decide!

/-- C6 (amended).  For every record whose amount `Number(amountPaid || 0)` is
greater than `0` and every grand total `g` with `|amount - g| > 0.01` in double
arithmetic, the error list is a list of required-field messages followed by
the mismatch message: the mismatch message occurs exactly once, as the last
entry, and it is the only entry when the four required fields are truthy.  The
validator of the receipt generator returns the same result on every record
that is not nullish. -/
theorem mismatch_reported_once (H : Host) (data : JSVal) (g : JSNum)
    (ha : JSNum.gt (amountPaidOf H data) (.fin 0) = true)
    (hd : JSNum.gt (JSNum.abs (JSNum.sub (amountPaidOf H data) g)) (toDouble (1 / 100)) = true) :
    (∃ pre, (Validate.validateReceiptData H data (.num g)).errors
        = pre ++ ["amountPaid does not match invoice grand total"] ∧
      (∀ e ∈ pre, e ∈ requiredMessages) ∧
      "amountPaid does not match invoice grand total" ∉ pre) ∧
    (Validate.validateReceiptData H data (.num g)).errors.count
      "amountPaid does not match invoice grand total" = 1 ∧
    (((receiptOf data).getOpt "receiptId").truthy = true →
      ((receiptOf data).getOpt "receiptDate").truthy = true →
      ((receiptOf data).getOpt "paymentMethod").truthy = true →
      (sourceInvoiceId data).truthy = true →
      (Validate.validateReceiptData H data (.num g)).errors
        = ["amountPaid does not match invoice grand total"]) ∧
    (data.isNullish = false →
      Receipt.validateReceiptData H data (.num g)
        = some (Validate.validateReceiptData H data (.num g))) := by
  have h1 := gt_eq_not_le (amountPaidOf H data) (.fin 0) (ne_nan_of_gt _ _ ha) (by simp)
  have hle : JSNum.le (amountPaidOf H data) (.fin 0) = false := by
    rw [ha] at h1
    cases h : JSNum.le (amountPaidOf H data) (.fin 0)
    · rfl
    · rw [h] at h1; simp at h1
  rw [validate_errors]
  simp only [ha, hd, hle, if_true]
  generalize ((receiptOf data).getOpt "receiptId").truthy = b1
  generalize ((receiptOf data).getOpt "receiptDate").truthy = b2
  generalize ((receiptOf data).getOpt "paymentMethod").truthy = b3
  generalize (sourceInvoiceId data).truthy = b4
  refine ⟨⟨pushIf (!b4) "invoiceId is required"
      (pushIf (!b3) "paymentMethod is required"
        (pushIf (!b2) "receiptDate is required"
          (pushIf (!b1) "receiptId is required" []))), ?_, ?_, ?_⟩, ?_, ?_,
    receipt_validate_eq_validate H data _⟩
  · cases b1 <;> cases b2 <;> cases b3 <;> cases b4 <;> rfl
  · cases b1 <;> cases b2 <;> cases b3 <;> cases b4 <;> decide
  · cases b1 <;> cases b2 <;> cases b3 <;> cases b4 <;> decide
  · cases b1 <;> cases b2 <;> cases b3 <;> cases b4 <;> decide
  · intro e1 e2 e3 e4
    subst e1 e2 e3 e4
    rfl

/-- C6 (witness): Scenario D, a receipt paying `1150.00` against the grand
total `1180.00`; the mismatch message is the only error. -/
theorem mismatch_reported_once_witness :
    JSNum.gt (amountPaidOf Host.numeric (receiptRecord (some (.num (.fin 1150))))) (.fin 0)
      = true ∧
    JSNum.gt (JSNum.abs (JSNum.sub
      (amountPaidOf Host.numeric (receiptRecord (some (.num (.fin 1150))))) (.fin 1180)))
      (toDouble (1 / 100)) = true ∧
    (Validate.validateReceiptData Host.numeric (receiptRecord (some (.num (.fin 1150))))
      (.num (.fin 1180))).errors = ["amountPaid does not match invoice grand total"] :=
  ⟨by decide!, by decide!,
    (mismatch_reported_once Host.numeric (receiptRecord (some (.num (.fin 1150)))) (.fin 1180)
      (by decide!) (by decide!)).2.2.1 (by decide) (by decide) (by decide) (by decide)⟩

/-! ## Receipt derivation -/

/-- C8.  For every invoice record and every overrides object,
`buildReceiptFromInvoice` returns a record whose receipt block has
`paymentMethod`, `transactionId`, `paymentNotes`, `receiptId` and `receiptDate`
equal to the override when that is truthy (present and non-empty) and
otherwise `'UPI'`, `''`, `''`, the generated `RCPT-` identifier and the current
date; `amountPaid` is the override exactly as given, with no default.  Every
top-level field other than `receipt` and `invoice` and every field of `invoice`
other than `invoiceId` is carried through unchanged, and `invoice.invoiceId` is
the source id when that is truthy and `''` otherwise: a string id is carried
through and an absent one becomes the empty string. -/
theorem buildReceipt_fields (now : Clock) (fs os : List (String × JSVal)) :
    ∃ r, buildReceiptFromInvoice now (.obj fs) (.obj os) = some r ∧
      ((r.getOpt "receipt").getOpt "paymentMethod" =
        if (JSVal.lookup "paymentMethod" os).truthy then JSVal.lookup "paymentMethod" os
        else .str "UPI") ∧
      ((r.getOpt "receipt").getOpt "transactionId" =
        if (JSVal.lookup "transactionId" os).truthy then JSVal.lookup "transactionId" os
        else .str "") ∧
      ((r.getOpt "receipt").getOpt "paymentNotes" =
        if (JSVal.lookup "paymentNotes" os).truthy then JSVal.lookup "paymentNotes" os
        else .str "") ∧
      ((r.getOpt "receipt").getOpt "receiptId" =
        if (JSVal.lookup "receiptId" os).truthy then JSVal.lookup "receiptId" os
        else .str ("RCPT-" ++ now.stamp)) ∧
      ((r.getOpt "receipt").getOpt "receiptDate" =
        if (JSVal.lookup "receiptDate" os).truthy then JSVal.lookup "receiptDate" os
        else .str now.date) ∧
      (r.getOpt "receipt").getOpt "amountPaid" = JSVal.lookup "amountPaid" os ∧
      (∀ k, k ≠ "receipt" → k ≠ "invoice" → r.getOpt k = JSVal.lookup k fs) ∧
      (∀ k, k ≠ "invoiceId" →
        (r.getOpt "invoice").getOpt k = JSVal.lookup k (JSVal.lookup "invoice" fs).ownFields) ∧
      ((r.getOpt "invoice").getOpt "invoiceId" =
        if (sourceInvoiceId (.obj fs)).truthy then sourceInvoiceId (.obj fs) else .str "") ∧
      (∀ s, sourceInvoiceId (.obj fs) = .str s →
        (r.getOpt "invoice").getOpt "invoiceId" = .str s) ∧
      (sourceInvoiceId (.obj fs) = .undefined →
        (r.getOpt "invoice").getOpt "invoiceId" = .str "") ∧
      buildReceiptFromInvoice now (.obj fs) .undefined
        = buildReceiptFromInvoice now (.obj fs) (.obj []) := by
  refine ⟨_, rfl, ?_, ?_, ?_, ?_, ?_, ?_, ?_, ?_, ?_, ?_, ?_, rfl⟩
  · simp [JSVal.getOpt, JSVal.lookup, JSVal.or]
  · simp [JSVal.getOpt, JSVal.lookup, JSVal.or]
  · simp [JSVal.getOpt, JSVal.lookup, JSVal.or]
  · simp [JSVal.getOpt, JSVal.lookup, JSVal.or]
  · simp [JSVal.getOpt, JSVal.lookup, JSVal.or]
  · simp [JSVal.getOpt, JSVal.lookup]
  · intro k h1 h2
    simp [JSVal.getOpt, JSVal.lookup, JSVal.ownFields, Ne.symm h1, Ne.symm h2]
  · intro k h1
    simp [JSVal.getOpt, JSVal.lookup, Ne.symm h1]
  · simp [JSVal.getOpt, JSVal.lookup, JSVal.or, sourceInvoiceId]
  · intro s hs
    simp only [sourceInvoiceId, JSVal.getOpt] at hs
    simp only [JSVal.getOpt, JSVal.lookup, JSVal.or, sourceInvoiceId, if_true, hs]
    by_cases h : s = "" <;> simp [JSVal.truthy, h]
  · intro hs
    simp only [sourceInvoiceId, JSVal.getOpt] at hs
    simp only [JSVal.getOpt, JSVal.lookup, JSVal.or, sourceInvoiceId, if_true, hs]
    simp [JSVal.truthy]

/-! ## The `/receipt` flow -/

/-- The double `0.01`. -/
theorem tolerance_eq :
    toDouble (1 / 100) = .fin (5764607523034235 / 576460752303423488) := by
  decide!

/-- A string with a non-empty left part is not empty. -/
theorem append_ne_empty (a b : String) (h : a.length ≠ 0) : a ++ b ≠ "" := by
  intro e
  have := congrArg String.length e
  rw [String.length_append] at this
  simp at this
  omega

/-- The generated receipt id is not empty. -/
theorem receiptId_ne_empty (now : Clock) : "RCPT-" ++ now.stamp ≠ "" :=
  append_ne_empty _ _ (by decide)

/-- The formatted date is not empty. -/
theorem date_ne_empty (now : Clock) : now.date ≠ "" := by
  unfold Clock.date
  intro e
  have := congrArg String.length e
  simp only [String.length_append] at this
  have h1 : "-".length = 1 := by decide
  have h0 : "".length = 0 := by decide
  omega

/-- The callback of the receipt generator returns on every object. -/
theorem receipt_computeItem_obj (H : Host) (fs : List (String × JSVal)) :
    ∃ c, Receipt.computeItem H (.obj fs) = some c :=
  ⟨_, rfl⟩

/-- The combined charge is computed for every charges value meeting the
schema. -/
theorem shippingOf_schema (H : Host) (charges : JSVal) (h : schemaCharges charges = true) :
    ∃ s, shippingOf H charges = some s := by
  cases charges <;> simp [schemaCharges] at h <;> exact ⟨_, rfl⟩

/-- Totals are computed, without a throw, for the items and charges of a record
meeting the schema constraints. -/
theorem computeTotals_schema (H : Host) (d : JSVal) (hs : schemaCore d = true) :
    d.getOpt "items" = .arr (itemsOf d) ∧
    ∃ t, Receipt.computeTotals H (itemsOf d) (d.getOpt "charges") = some t := by
  cases d with
  | obj fs =>
    simp only [schemaCore, Bool.and_eq_true] at hs
    obtain ⟨⟨_, hitems⟩, hch⟩ := hs
    simp only [itemsOf, JSVal.getOpt]
    cases hl : JSVal.lookup "items" fs with
    | arr xs =>
      rw [hl] at hitems
      simp only [Bool.and_eq_true, List.all_eq_true] at hitems
      refine ⟨rfl, ?_⟩
      obtain ⟨ys, hys, _⟩ := mapIdxOpt_forall₂ (fun _ item => Receipt.computeItem H item)
        (fun _ _ => True) xs 0 (fun _ x hx => by
          have := hitems.2 x hx
          cases x <;> simp [schemaItem] at this
          exact ⟨_, rfl, trivial⟩)
      obtain ⟨s, hs'⟩ := shippingOf_schema H _ hch
      exact ⟨_, by simp only [Receipt.computeTotals, hys, hs']; rfl⟩
    | _ => rw [hl] at hitems; simp at hitems
  | _ => simp [schemaCore] at hs

/-- A number greater than `0` is not at most `0`. -/
theorem le_zero_false_of_gt (a : JSNum) (h : JSNum.gt a (.fin 0) = true) :
    JSNum.le a (.fin 0) = false := by
  have h1 := gt_eq_not_le a (.fin 0) (ne_nan_of_gt _ _ h) (by simp)
  rw [h] at h1
  cases hle : JSNum.le a (.fin 0)
  · rfl
  · rw [hle] at h1; simp at h1

/-- A number greater than `0` does not differ from itself by more than the
tolerance: the difference is `0`, or `NaN` for `+∞`. -/
theorem self_within_tolerance (g : JSNum) (h : JSNum.gt g (.fin 0) = true) :
    JSNum.gt (JSNum.abs (JSNum.sub g g)) (toDouble (1 / 100)) = false := by
  rw [tolerance_eq]
  cases g with
  | nan => simp [JSNum.gt, JSNum.lt] at h
  | inf b =>
    cases b
    · simp [JSNum.sub, JSNum.neg, JSNum.add, JSNum.abs, JSNum.gt, JSNum.lt]
    · simp [JSNum.gt, JSNum.lt] at h
  | fin q =>
    simp only [JSNum.sub, JSNum.neg, JSNum.add, add_neg_cancel, toDouble_zero, JSNum.abs,
      abs_zero, JSNum.gt, JSNum.lt]
    norm_num

/-- A number that is not greater than `0`, read through `Number(g || 0)`, is at
most `0` and not greater than `0`. -/
theorem or_zero_nonpositive (H : Host) (g : JSNum) (h : JSNum.gt g (.fin 0) = false) :
    JSNum.le (JSVal.toNumber H (JSVal.or (.num g) (.num (.fin 0)))) (.fin 0) = true ∧
    JSNum.gt (JSVal.toNumber H (JSVal.or (.num g) (.num (.fin 0)))) (.fin 0) = false := by
  cases g with
  | nan => simp [JSVal.or, JSVal.truthy, JSVal.toNumber, JSNum.le, JSNum.gt, JSNum.lt]
  | inf b =>
    cases b
    · simp [JSNum.gt, JSNum.lt] at h
    · simp [JSVal.or, JSVal.truthy, JSVal.toNumber, JSNum.le, JSNum.gt, JSNum.lt]
  | fin q =>
    simp only [JSNum.gt, JSNum.lt, decide_eq_false_iff_not, not_lt] at h
    by_cases hq : q = 0
    · simp [JSVal.or, JSVal.truthy, JSVal.toNumber, JSNum.le, JSNum.gt, JSNum.lt, hq]
    · simp [JSVal.or, JSVal.truthy, JSVal.toNumber, JSNum.le, JSNum.gt, JSNum.lt, hq, h]

/-- The default of `undefined || b` is `b`. -/
theorem or_undefined (b : JSVal) : JSVal.or .undefined b = b := rfl

/-- An object is truthy: `{…} || b` is the object. -/
theorem or_obj (fs : List (String × JSVal)) (b : JSVal) : JSVal.or (.obj fs) b = .obj fs := rfl

/-- A non-empty string is truthy: `s || b` is the string. -/
theorem or_str (s : String) (b : JSVal) (h : s ≠ "") : JSVal.or (.str s) b = .str s := by
  simp [JSVal.or, JSVal.truthy, h]

/-- A string is truthy exactly when it is not empty. -/
theorem truthy_str (s : String) (h : s ≠ "") : (JSVal.str s).truthy = true := by
  simp [JSVal.truthy, h]

/-- The receipt derived from a record meeting the schema constraints, with no
overrides but `amountPaid = g`, validates against `g` exactly when `g > 0`;
otherwise the positive-amount message is its only error. -/
theorem validate_derived (H : Host) (now : Clock) (d : JSVal) (g : JSNum)
    (hs : schemaCore d = true) :
    ∃ rd, buildReceiptFromInvoice now d (.obj [("amountPaid", .num g)]) = some rd ∧
      (JSNum.gt g (.fin 0) = true →
        Validate.validateReceiptData H rd (.num g) = { ok := true, errors := [] }) ∧
      (JSNum.gt g (.fin 0) = false →
        Validate.validateReceiptData H rd (.num g)
          = { ok := false, errors := ["amountPaid must be greater than 0"] }) := by
  cases d with
  | obj fs =>
    simp only [schemaCore, Bool.and_eq_true] at hs
    obtain ⟨⟨hinv, _⟩, _⟩ := hs
    cases hl : JSVal.lookup "invoice" fs with
    | obj inv =>
      simp only [hl] at hinv
      cases hi : JSVal.lookup "invoiceId" inv with
      | str s =>
        simp only [hi, schemaText, decide_eq_true_eq] at hinv
        have e6 : ("UPI" : String) ≠ "" := by decide
        refine ⟨_, rfl, ?_, ?_⟩
        · intro hg
          have e1 := toNumber_or_zero H g (ne_nan_of_gt _ _ hg)
          have e2 := le_zero_false_of_gt g hg
          have e3 := self_within_tolerance g hg
          rw [one_div] at e3
          have e4 := receiptId_ne_empty now
          have e5 := date_ne_empty now
          simp [Validate.validateReceiptData, buildReceiptFromInvoice, JSVal.get, JSVal.getOpt,
            JSVal.lookup, or_undefined, or_obj, or_str _ _ hinv, or_str _ _ e4, or_str _ _ e5,
            truthy_str _ hinv, truthy_str _ e4, truthy_str _ e5, truthy_str _ e6, JSVal.ownFields, hl, hi,
            pushIf, e1, e2, e3, hg]
        · intro hg
          obtain ⟨e1, e2⟩ := or_zero_nonpositive H g hg
          have e4 := receiptId_ne_empty now
          have e5 := date_ne_empty now
          simp [Validate.validateReceiptData, buildReceiptFromInvoice, JSVal.get, JSVal.getOpt,
            JSVal.lookup, or_undefined, or_obj, or_str _ _ hinv, or_str _ _ e4, or_str _ _ e5,
            truthy_str _ hinv, truthy_str _ e4, truthy_str _ e5, truthy_str _ e6, JSVal.ownFields, hl, hi,
            pushIf, e1, e2]
      | _ => simp [hi, schemaText] at hinv
    | _ => simp [hl] at hinv
  | _ => simp [schemaCore] at hs

/-- C7 (counterexample).  A schema-valid invoice whose only item has quantity
`0` and no receipt block has grand total `0`; the `/receipt` handler defaults
`amountPaid` to it and validation rejects the derived receipt with the error
`amountPaid must be greater than 0`. -/
theorem zero_total_receipt_rejected :
    schemaCore zeroInvoice = true ∧
    (zeroInvoice.getOpt "receipt").isNullish = true ∧
    (Receipt.computeTotals Host.numeric (itemsOf zeroInvoice)
        (zeroInvoice.getOpt "charges")).map (fun t => t.summary.grandTotal) = some (.fin 0) ∧
    receiptCommand Host.numeric sampleClock zeroInvoice
      = some { ok := false, errors := ["amountPaid must be greater than 0"] } := by
  decide!

/-- C7 (amended).  For every invoice record meeting the schema constraints,
with no receipt block, the totals are computed without a throw, and with `g`
their grand total: when `g > 0` the receipt derived with `amountPaid` defaulted
to `g` validates against `g` with `ok = true` and no errors, both as the
`/receipt` handler runs it and as the direct composition of
`buildReceiptFromInvoice` and `validateReceiptData`; when `g` is not greater
than `0` the handler's validation fails with the single error
`amountPaid must be greater than 0`. -/
theorem derived_receipt_validation (H : Host) (now : Clock) (d : JSVal)
    (hs : schemaCore d = true) (hr : (d.getOpt "receipt").isNullish = true) :
    ∃ t, Receipt.computeTotals H (itemsOf d) (d.getOpt "charges") = some t ∧
      (JSNum.gt t.summary.grandTotal (.fin 0) = true →
        receiptCommand H now d = some { ok := true, errors := [] } ∧
        ∃ rd, buildReceiptFromInvoice now d
            (.obj [("amountPaid", .num t.summary.grandTotal)]) = some rd ∧
          Validate.validateReceiptData H rd (.num t.summary.grandTotal)
            = { ok := true, errors := [] }) ∧
      (JSNum.gt t.summary.grandTotal (.fin 0) = false →
        receiptCommand H now d
          = some { ok := false, errors := ["amountPaid must be greater than 0"] }) := by
  obtain ⟨hitems, t, ht⟩ := computeTotals_schema H d hs
  obtain ⟨rd, hrd, hpos, hneg⟩ := validate_derived H now d t.summary.grandTotal hs
  have hcmd : receiptCommand H now d
      = some (Validate.validateReceiptData H rd (.num t.summary.grandTotal)) := by
    cases d with
    | obj fs =>
      simp only [JSVal.getOpt] at hitems hr ht
      simp only [receiptCommand, JSVal.get, hitems, ht]
      generalize JSVal.lookup "receipt" fs = r at hr
      cases r <;> simp [JSVal.isNullish] at hr <;>
        simp [JSVal.getOpt, JSVal.ownFields, or_undefined, JSVal.toNumber, hrd]
    | _ => simp [schemaCore] at hs
  refine ⟨t, ht, fun hg => ⟨?_, rd, hrd, hpos hg⟩, fun hg => ?_⟩
  · rw [hcmd, hpos hg]
  · rw [hcmd, hneg hg]

/-- C7 (witness): Scenario A, one item `{qty 2, rate 500, discount 0, gst 18}`
and no charges: the grand total is `1180.00` and the derived receipt passes
with no errors. -/
theorem derived_receipt_validation_witness :
    schemaCore scenarioAInvoice = true ∧
    (scenarioAInvoice.getOpt "receipt").isNullish = true ∧
    (Receipt.computeTotals Host.numeric (itemsOf scenarioAInvoice)
        (scenarioAInvoice.getOpt "charges")).map (fun t => t.summary.grandTotal)
      = some (.fin 1180) ∧
    receiptCommand Host.numeric sampleClock scenarioAInvoice
      = some { ok := true, errors := [] } := by
  have h1 : schemaCore scenarioAInvoice = true := by decide!
  have h2 : (scenarioAInvoice.getOpt "receipt").isNullish = true := by decide
  have h3 : (Receipt.computeTotals Host.numeric (itemsOf scenarioAInvoice)
      (scenarioAInvoice.getOpt "charges")).map (fun t => t.summary.grandTotal)
      = some (.fin 1180) := by decide!
  obtain ⟨t, ht, hpos, _⟩ :=
    derived_receipt_validation Host.numeric sampleClock scenarioAInvoice h1 h2
  rw [ht] at h3
  simp only [Option.map_some', Option.some.injEq] at h3
  exact ⟨h1, h2, by rw [ht]; simp [h3], (hpos (by rw [h3]; decide)).1⟩

/-! ## Schema validation -/

/-- Removing a field leaves the other fields as they are. -/
theorem lookup_filter_ne (r k : String) (h : k ≠ r) (fs : List (String × JSVal)) :
    JSVal.lookup k (fs.filter fun e => e.1 ≠ r) = JSVal.lookup k fs := by
  induction fs with
  | nil => rfl
  | cons e rest ih =>
    obtain ⟨k', v⟩ := e
    by_cases hk : k' = r
    · have hne : k' ≠ k := fun e => h (e ▸ hk)
      rw [List.filter_cons_of_neg (by simp [hk]), ih]
      simp only [JSVal.lookup, if_neg hne]
    · rw [List.filter_cons_of_pos (by simp [hk])]
      simp only [JSVal.lookup, ih]

/-- A removed field reads as `undefined`. -/
theorem lookup_filter_self (r : String) (fs : List (String × JSVal)) :
    JSVal.lookup r (fs.filter fun e => e.1 ≠ r) = .undefined := by
  induction fs with
  | nil => rfl
  | cons e rest ih =>
    obtain ⟨k', v⟩ := e
    by_cases hk : k' = r
    · rw [List.filter_cons_of_neg (by simp [hk]), ih]
    · rw [List.filter_cons_of_pos (by simp [hk])]
      simp only [JSVal.lookup, if_neg hk, ih]

/-- The keys that `for ... in` visits are the keys of the field list. -/
theorem mem_keysOf (k : String) (fs : List (String × JSVal)) :
    k ∈ keysOf fs ↔ ∃ v, (k, v) ∈ fs := by
  induction fs with
  | nil => simp [keysOf]
  | cons e rest ih =>
    obtain ⟨k', v'⟩ := e
    simp only [keysOf, List.mem_cons, List.mem_filter, ih, decide_eq_true_eq, Prod.mk.injEq]
    constructor
    · rintro (rfl | ⟨⟨v, hv⟩, _⟩)
      · exact ⟨v', Or.inl ⟨rfl, rfl⟩⟩
      · exact ⟨v, Or.inr hv⟩
    · rintro ⟨v, ⟨rfl, rfl⟩ | hv⟩
      · exact Or.inl rfl
      · by_cases hk : k = k'
        · exact Or.inl hk
        · exact Or.inr ⟨⟨v, hv⟩, hk⟩

/-- A record without additional properties has none after a field is removed. -/
theorem additionalErrors_filter (path : String) (allowed : Bool) (names : List String)
    (r : String) (fs : List (String × JSVal))
    (h : additionalErrors path allowed names fs = []) :
    additionalErrors path allowed names (fs.filter fun e => e.1 ≠ r) = [] := by
  unfold additionalErrors at h ⊢
  cases allowed with
  | true => rfl
  | false =>
    simp only [Bool.false_eq_true, if_false, List.map_eq_nil_iff, List.filter_eq_nil_iff] at h ⊢
    intro k hk
    apply h k
    obtain ⟨v, hv⟩ := (mem_keysOf k _).mp hk
    exact (mem_keysOf k fs).mpr ⟨v, (List.mem_filter.mp hv).1⟩

/-- Properties that validate keep validating after a field is removed: the
removed one is skipped, the others are unchanged. -/
theorem validateProperties_filter (A : Ajv) (r path : String) (fs : List (String × JSVal)) :
    ∀ props : List (String × Schema), Ajv.validateProperties A props path fs = [] →
      Ajv.validateProperties A props path (fs.filter fun e => e.1 ≠ r) = []
  | [], _ => by simp [Ajv.validateProperties]
  | (name, s) :: rest, h => by
    simp only [Ajv.validateProperties, List.append_eq_nil] at h ⊢
    refine ⟨?_, validateProperties_filter A r path fs rest h.2⟩
    by_cases hn : name = r
    · rw [hn, lookup_filter_self]; simp [JSVal.isDefined]
    · rw [lookup_filter_ne r name hn]; exact h.1

/-- After a field is removed from a record with all required properties, the
missing required properties are the removed one, if it is required. -/
theorem requiredErrors_filter (path r : String) (fs : List (String × JSVal)) :
    ∀ required : List String, requiredErrors path required fs = [] →
      requiredErrors path required (fs.filter fun e => e.1 ≠ r) =
        (required.filter fun k => k = r).map fun k =>
          { instancePath := path, keyword := "required",
            params := [("missingProperty", .str k)] } := by
  intro required h
  unfold requiredErrors at h ⊢
  simp only [List.map_eq_nil_iff, List.filter_eq_nil_iff] at h
  congr 1
  apply List.filter_congr
  intro k hk
  by_cases hkr : k = r
  · rw [hkr, lookup_filter_self]; simp [JSVal.isDefined]
  · rw [lookup_filter_ne r k hkr]
    have := h k hk
    simp only [Bool.not_eq_true, Bool.not_eq_false'] at this
    simp [this, hkr]

/-- The errors of the compiled validator on an object: those of `required`,
of `additionalProperties` and of `properties`, in this order. -/
theorem compiledValidate_obj (A : Ajv) (fs : List (String × JSVal)) :
    compiledValidate A (.obj fs) =
      requiredErrors "" ["business", "customer", "invoice", "items"] fs ++
      additionalErrors "" false (invoiceProperties.map fun p => p.1) fs ++
      Ajv.validateProperties A invoiceProperties "" fs := by
  simp [compiledValidate, InvoiceSchema, Ajv.validate, testedInGroup, hasRulesFor,
    enumErrors, invoiceProperties]

/-- The compiled validator rejects every value that is no object. -/
theorem compiledValidate_not_obj (A : Ajv) (d : JSVal)
    (h : compiledValidate A d = []) : ∃ fs, d = .obj fs := by
  cases d with
  | obj fs => exact ⟨fs, rfl⟩
  | _ =>
    simp [compiledValidate, InvoiceSchema, Ajv.validate, testedInGroup, hasRulesFor,
      enumErrors, invoiceProperties, wrongGroupType] at h

/-- C11.  For every invoice record that `validateInvoiceData` accepts, the
record with the top-level field `items` removed is rejected, `ok = false`, and
its error list has exactly one entry: the `required` error at the root whose
missing property is `items`. -/
theorem missing_items_single_error (A : Ajv) (d : JSVal)
    (h : (Validate.validateInvoiceData (compiledValidate A) d).ok = true) :
    (removeField "items" d).getOpt "items" = .undefined ∧
    Validate.validateInvoiceData (compiledValidate A) (removeField "items" d)
      = { ok := false, errors := [missingProperty "items"] } := by
  have hnil : compiledValidate A d = [] := by
    simpa [Validate.validateInvoiceData] using h
  obtain ⟨fs, rfl⟩ := compiledValidate_not_obj A d hnil
  rw [compiledValidate_obj] at hnil
  simp only [List.append_eq_nil] at hnil
  obtain ⟨⟨hreq, hadd⟩, hprops⟩ := hnil
  have e : compiledValidate A (removeField "items" (.obj fs)) = [missingProperty "items"] := by
    simp only [removeField]
    rw [compiledValidate_obj, requiredErrors_filter "" "items" fs _ hreq,
      additionalErrors_filter "" false _ "items" fs hadd,
      validateProperties_filter A "items" "" fs _ hprops]
    simp [missingProperty, List.filter]
  refine ⟨lookup_filter_self "items" fs, ?_⟩
  simp [Validate.validateInvoiceData, e]

/-- C11 (witness): the Scenario A invoice is accepted, and without its `items`
the single error is the missing required property `items`. -/
theorem missing_items_single_error_witness :
    (Validate.validateInvoiceData (compiledValidate Ajv.standard) scenarioAInvoice).ok = true ∧
    Validate.validateInvoiceData (compiledValidate Ajv.standard)
        (removeField "items" scenarioAInvoice)
      = { ok := false, errors := [missingProperty "items"] } :=
  ⟨by decide!, (missing_items_single_error Ajv.standard scenarioAInvoice (by decide!)).2⟩

/-! ## The two receipt validators -/

/-- C12.  For every record object and every second argument (a number, absent,
or anything else), `validateReceiptData` of the receipt generator returns,
without throwing, the result of `validateReceiptData` of `utils/validate.js`:
the same `ok` flag and the same error messages in the same order. -/
theorem receipt_validators_agree (H : Host) (fs : List (String × JSVal)) (g : JSVal) :
    ∃ r, Receipt.validateReceiptData H (.obj fs) g = some r ∧
      r = Validate.validateReceiptData H (.obj fs) g ∧
      r.ok = (Validate.validateReceiptData H (.obj fs) g).ok ∧
      r.errors = (Validate.validateReceiptData H (.obj fs) g).errors :=
  ⟨_, receipt_validate_eq_validate H (.obj fs) g rfl, rfl, rfl, rfl⟩

/-! ## Accepted records meet the schema constraints of the receipt flow -/

/-- A value accepted by `{ type: 'string', minLength: 1 }` is a non-empty
string. -/
theorem schemaText_of_valid (A : Ajv) (path : String) (v : JSVal)
    (h : A.validate nonEmptyTextSchema path v = []) : schemaText v = true := by
  cases v with
  | str s =>
    simp [nonEmptyTextSchema, Ajv.validate, testedInGroup, hasRulesFor, enumErrors,
      stringErrors] at h
    simp only [schemaText, decide_eq_true_eq]
    intro e
    rw [e] at h
    simp at h
  | _ =>
    simp [nonEmptyTextSchema, Ajv.validate, testedInGroup, hasRulesFor, enumErrors,
      wrongGroupType, typeError] at h

/-- A number that is neither below a bound nor `NaN` is at least the bound. -/
theorem le_of_not_lt (n : JSNum) (m : ℚ) (h1 : JSNum.lt n (.fin m) = false) (h2 : n ≠ .nan) :
    JSNum.le (.fin m) n = true := by
  cases n with
  | nan => exact absurd rfl h2
  | inf b => cases b <;> simp [JSNum.lt, JSNum.le] at h1 ⊢
  | fin q => simpa [JSNum.lt, JSNum.le] using h1

/-- A number that is neither above a bound nor `NaN` is at most the bound. -/
theorem le_of_not_gt (n : JSNum) (m : ℚ) (h1 : JSNum.gt n (.fin m) = false) (h2 : n ≠ .nan) :
    JSNum.le n (.fin m) = true := by
  cases n with
  | nan => exact absurd rfl h2
  | inf b => cases b <;> simp [JSNum.gt, JSNum.lt, JSNum.le] at h1 ⊢
  | fin q => simpa [JSNum.gt, JSNum.lt, JSNum.le] using h1

/-- A value accepted by `{ type: 'number', minimum: 0 }` is a number `≥ 0`. -/
theorem schemaNumber_of_valid_amount (A : Ajv) (path : String) (v : JSVal)
    (h : A.validate amountSchema path v = []) : schemaNumber v 0 none = true := by
  cases v with
  | num n =>
    simp only [amountSchema, Ajv.validate, testedInGroup, hasRulesFor, enumErrors,
      numberErrors, wrongGroupType, typeError, JType.check] at h
    by_cases hc : (!A.strictNumbers || n.isFinite) = true
    · simp [hc] at h
      simp [schemaNumber, le_of_not_lt n 0 h.1 h.2]
    · simp [hc] at h
  | _ =>
    simp [amountSchema, Ajv.validate, testedInGroup, hasRulesFor, enumErrors,
      wrongGroupType, typeError] at h

/-- A value accepted by `{ type: 'number', minimum: 0, maximum: 100 }` is a
number from `0` to `100`. -/
theorem schemaNumber_of_valid_percent (A : Ajv) (path : String) (v : JSVal)
    (h : A.validate percentSchema path v = []) : schemaNumber v 0 (some 100) = true := by
  cases v with
  | num n =>
    simp only [percentSchema, Ajv.validate, testedInGroup, hasRulesFor, enumErrors,
      numberErrors, wrongGroupType, typeError, JType.check] at h
    by_cases hc : (!A.strictNumbers || n.isFinite) = true
    · simp [hc] at h
      simp [schemaNumber, le_of_not_lt n 0 h.2.1 h.2.2, le_of_not_gt n 100 h.1.1 h.1.2]
    · simp [hc] at h
  | _ =>
    simp [percentSchema, Ajv.validate, testedInGroup, hasRulesFor, enumErrors,
      wrongGroupType, typeError] at h

/-- With no `required` error, every required property is defined. -/
theorem defined_of_required (path : String) (required : List String)
    (fs : List (String × JSVal)) (h : requiredErrors path required fs = []) (k : String)
    (hk : k ∈ required) : (JSVal.lookup k fs).isDefined = true := by
  unfold requiredErrors at h
  simp only [List.map_eq_nil_iff, List.filter_eq_nil_iff] at h
  simpa using h k hk

/-- A value accepted by the schema of a line item meets `schemaItem`. -/
theorem schemaItem_of_valid (A : Ajv) (path : String) (v : JSVal)
    (h : A.validate lineItemSchema path v = []) : schemaItem v = true := by
  cases v with
  | obj fs =>
    simp only [lineItemSchema, Ajv.validate, testedInGroup, hasRulesFor, enumErrors] at h
    simp only [List.isEmpty_cons, Bool.not_false, Bool.or_true, Bool.true_or, if_true,
      List.append_eq_nil, Bool.not_true, Bool.and_false, Bool.false_and, Bool.false_eq_true,
      if_false, Option.isSome_none, Bool.or_false, Bool.or_self] at h
    obtain ⟨_, ⟨hreq, _⟩, hp⟩ := h
    have d1 := defined_of_required _ _ _ hreq "description" (by simp)
    have d2 := defined_of_required _ _ _ hreq "qty" (by simp)
    have d3 := defined_of_required _ _ _ hreq "rate" (by simp)
    have d4 := defined_of_required _ _ _ hreq "discountPercent" (by simp)
    have d5 := defined_of_required _ _ _ hreq "gstPercent" (by simp)
    simp only [Ajv.validateProperties, d1, d2, d3, d4, d5, if_true, List.append_eq_nil] at hp
    obtain ⟨p1, p2, p3, p4, p5, _⟩ := hp
    simp [schemaItem, schemaText_of_valid A _ _ p1, schemaNumber_of_valid_amount A _ _ p2,
      schemaNumber_of_valid_amount A _ _ p3, schemaNumber_of_valid_percent A _ _ p4,
      schemaNumber_of_valid_percent A _ _ p5]
  | _ =>
    simp [lineItemSchema, Ajv.validate, testedInGroup, hasRulesFor, enumErrors,
      wrongGroupType, typeError] at h

/-- When `bindIdx` yields nothing, `f` yields nothing at any element. -/
theorem bindIdx_eq_nil {α β : Type} (f : ℕ → α → List β) (xs : List α) (i : ℕ)
    (h : bindIdx f i xs = []) : ∀ x ∈ xs, ∃ j, f j x = [] := by
  induction xs generalizing i with
  | nil => intro x hx; cases hx
  | cons y ys ih =>
    simp only [bindIdx, List.append_eq_nil] at h
    intro x hx
    rcases List.mem_cons.1 hx with rfl | hx
    · exact ⟨i, h.1⟩
    · exact ih (i + 1) h.2 x hx

/-- A value accepted by the schema of `items` is a non-empty array of line
items meeting `schemaItem`. -/
theorem items_of_valid (A : Ajv) (path : String) (v : JSVal)
    (h : A.validate itemsSchema path v = []) :
    ∃ xs, v = .arr xs ∧ xs.isEmpty = false ∧ xs.all schemaItem = true := by
  cases v with
  | arr xs =>
    simp only [itemsSchema, Ajv.validate, testedInGroup, hasRulesFor, enumErrors] at h
    simp only [List.isEmpty_cons, Bool.not_false, Bool.or_true, Bool.true_or, if_true,
      List.append_eq_nil, Bool.not_true, Bool.and_false, Bool.false_and, Bool.false_eq_true,
      if_false, Option.isSome_none, Option.isSome_some, Bool.or_false, Bool.or_self,
      Ajv.validateItems] at h
    obtain ⟨⟨_, hlen, hitems⟩, _⟩ := h
    refine ⟨xs, rfl, ?_, ?_⟩
    · cases xs with
      | nil => simp at hlen
      | cons _ _ => rfl
    · rw [List.all_eq_true]
      intro x hx
      obtain ⟨j, hj⟩ := bindIdx_eq_nil _ xs 0 hitems x hx
      exact schemaItem_of_valid A _ x hj
  | _ =>
    simp [itemsSchema, Ajv.validate, testedInGroup, hasRulesFor, enumErrors,
      wrongGroupType, typeError] at h

/-- An optional amount that the `properties` keyword lets through meets
`schemaOptionalCharge`. -/
theorem optionalCharge_of_valid (A : Ajv) (path : String) (v : JSVal)
    (h : (if v.isDefined then A.validate amountSchema path v else []) = []) :
    schemaOptionalCharge v = true := by
  cases v with
  | undefined => rfl
  | _ =>
    simp only [JSVal.isDefined, if_true] at h
    simpa [schemaOptionalCharge] using schemaNumber_of_valid_amount A _ _ h

/-- A value accepted by the schema of `charges` meets `schemaCharges`. -/
theorem schemaCharges_of_valid (A : Ajv) (path : String) (v : JSVal)
    (h : A.validate chargesSchema path v = []) : schemaCharges v = true := by
  cases v with
  | obj fs =>
    simp only [chargesSchema, Ajv.validate, testedInGroup, hasRulesFor, enumErrors] at h
    simp only [List.isEmpty_cons, Bool.not_false, Bool.or_true, Bool.true_or, if_true,
      List.append_eq_nil, Bool.not_true, Bool.and_false, Bool.false_and, Bool.false_eq_true,
      if_false, Option.isSome_none, Bool.or_false, Bool.or_self,
      Ajv.validateProperties] at h
    obtain ⟨_, _, p1, p2, _⟩ := h
    simp [schemaCharges, optionalCharge_of_valid A _ _ p1, optionalCharge_of_valid A _ _ p2]
  | _ =>
    simp [chargesSchema, Ajv.validate, testedInGroup, hasRulesFor, enumErrors,
      wrongGroupType, typeError] at h

/-- A value accepted by the schema of `invoice` is an object with a non-empty
string `invoiceId`. -/
theorem invoiceId_of_valid (A : Ajv) (path : String) (v : JSVal)
    (h : A.validate invoiceMetaSchema path v = []) :
    ∃ inv, v = .obj inv ∧ schemaText (JSVal.lookup "invoiceId" inv) = true := by
  cases v with
  | obj fs =>
    simp only [invoiceMetaSchema, Ajv.validate, testedInGroup, hasRulesFor, enumErrors] at h
    simp only [List.isEmpty_cons, Bool.not_false, Bool.or_true, Bool.true_or, if_true,
      List.append_eq_nil, Bool.not_true, Bool.and_false, Bool.false_and, Bool.false_eq_true,
      if_false, Option.isSome_none, Bool.or_false, Bool.or_self] at h
    obtain ⟨_, ⟨hreq, _⟩, hp⟩ := h
    have d1 := defined_of_required _ _ _ hreq "invoiceId" (by simp)
    simp only [Ajv.validateProperties, d1, if_true, List.append_eq_nil] at hp
    exact ⟨fs, rfl, schemaText_of_valid A _ _ hp.1⟩
  | _ =>
    simp [invoiceMetaSchema, Ajv.validate, testedInGroup, hasRulesFor, enumErrors,
      wrongGroupType, typeError] at h

/-- Every record that the compiled validator accepts meets `schemaCore`. -/
theorem schemaCore_of_valid (A : Ajv) (d : JSVal) (h : compiledValidate A d = []) :
    schemaCore d = true := by
  obtain ⟨fs, rfl⟩ := compiledValidate_not_obj A d h
  rw [compiledValidate_obj] at h
  simp only [List.append_eq_nil] at h
  obtain ⟨⟨hreq, _⟩, hp⟩ := h
  have d1 := defined_of_required _ _ _ hreq "invoice" (by simp)
  have d2 := defined_of_required _ _ _ hreq "items" (by simp)
  simp only [invoiceProperties, Ajv.validateProperties, d1, d2, if_true,
    List.append_eq_nil] at hp
  obtain ⟨_, _, p3, p4, p5, _⟩ := hp
  obtain ⟨inv, e1, t1⟩ := invoiceId_of_valid A _ _ p3
  obtain ⟨xs, e2, n2, a2⟩ := items_of_valid A _ _ p4
  have c : schemaCharges (JSVal.lookup "charges" fs) = true := by
    cases hc : JSVal.lookup "charges" fs with
    | undefined => rfl
    | _ =>
      rw [hc] at p5
      simp only [JSVal.isDefined, if_true] at p5
      exact schemaCharges_of_valid A _ _ p5
  simp [schemaCore, e1, e2, t1, n2, a2, c]

end Billing
